import Mathlib

/-!
# Verification of the dynamosql SQL-dialect parser

This file gives a shallow embedding, in Lean 4, of the lexer and parser of the
dynamosql repository (package `parser`), and proves or refutes a fixed list of
claims about them.

The source is a lexer built from a regular-expression alternation
(`lexer.Regexp`) together with a declarative grammar (participle struct tags).
Each Lean definition below is translated from the corresponding Go declaration;
comments quote the Go source it embeds.

Modelling conventions:
* The regexp lexer is embedded as a total function on character lists.  The
  regular expression is an ordered alternation matched at the start of the
  remaining input (leftmost-first, greedy quantifiers); each alternative is
  translated into a dedicated scanner, tried in the source's priority order:
  whitespace > Keyword > QuotedIdent > Ident > Number > String > Operators > `;`.
  Unnamed groups (whitespace and `;`) produce no token, exactly as
  `participle/lexer.Regexp` elides them.
* The participle grammar is embedded as a recursive-descent parser over the
  token list.  Alternatives, optional groups and repetitions backtrack to
  their start position on failure (participle uses bounded lookahead,
  `UseLookahead(2)`; on every statement proved below the two semantics agree,
  since no successful parse requires a branch to fail after consuming more
  than two tokens, and a parse that fails under the more permissive
  full-backtracking semantics also fails under bounded lookahead).
* Go machine integers captured from tokens (`int`, `int64`) are modelled as
  `Int`; the capture applies `strconv.ParseInt`, modelled by `parseGoInt`
  (sign followed by decimal digits — the only lexemes this lexer can produce
  for integer captures).
* The Go field `Scalar.Number *float64` is captured with `strconv.ParseFloat`.
  IEEE arithmetic itself is not modelled; the captured value is embedded as
  the exact value denoted by the decimal lexeme, in canonical scientific form
  (`DecValue`: significand and power-of-ten exponent, trailing zeros
  stripped, so two lexemes receive equal captures iff they denote the same
  rational).  This is faithful for every statement below: the facts proved
  only use lexemes (`1`, `1.0`, small integers) on which `ParseFloat` is
  exact, and `float64` identifies at least as many lexemes as the exact value
  does (rounding only merges more lexemes, which can only make the claim
  refuted here fail harder).
* `participle.Unquote("String")` strips the surrounding quotes of a string
  token (escape decoding is not exercised by any statement below, and the
  string lexeme classes `'[^']*'`/`"[^"]*"` used here contain no escapes);
  `UnquoteIdent()` strips the surrounding back-ticks of a quoted identifier.
* Fuel arguments make the recursive functions structurally terminating;
  exhausted fuel yields `none`, and every wrapper supplies fuel that is
  provably (or by computation) sufficient.
-/

namespace DynamoSql

/-! ## Tokens

Go: `lexer.Regexp` produces tokens typed by the named capture groups
`Keyword`, `QuotedIdent`, `Ident`, `Number`, `String`, `Operators`. -/

inductive TokenKind where
  | keyword
  | quotedIdent
  | ident
  | number
  | str
  | op
  deriving DecidableEq, Repr

structure Token where
  kind : TokenKind
  value : String
  deriving DecidableEq, Repr

abbrev Tokens := List Token

/-- The keyword alternation of the lexer, in source order (note `INDEX`
appears twice in the source, and `REPLACE` does not appear at all):

`SELECT|FROM|WHERE|LIMIT|OFFSET|INSERT|INTO|VALUES|TRUE|FALSE|NULL|NOT|
BETWEEN|AND|OR|USE|INDEX|ASC|DESC|CREATE|TABLE|HASH|RANGE|PROJECTION|
PROVISIONED|THROUGHPUT|READ|WRITE|GLOBAL|LOCAL|INDEX|SECONDARY|STRING|NUMBER|
BINARY|RETURNING|NONE|ALL_OLD|UPDATED_OLD|ALL_NEW|UPDATED_NEW|DELETE|CHECK` -/
def lexerKeywords : List String :=
  ["SELECT", "FROM", "WHERE", "LIMIT", "OFFSET", "INSERT", "INTO", "VALUES",
   "TRUE", "FALSE", "NULL", "NOT", "BETWEEN", "AND", "OR", "USE", "INDEX",
   "ASC", "DESC", "CREATE", "TABLE", "HASH", "RANGE", "PROJECTION",
   "PROVISIONED", "THROUGHPUT", "READ", "WRITE", "GLOBAL", "LOCAL", "INDEX",
   "SECONDARY", "STRING", "NUMBER", "BINARY", "RETURNING", "NONE", "ALL_OLD",
   "UPDATED_OLD", "ALL_NEW", "UPDATED_NEW", "DELETE", "CHECK"]

/-- Go `strings.ToUpper` (and the upper-casing a case-insensitive regexp or
literal match performs).  All strings it is applied to below are ASCII, so
per-character ASCII upper-casing is exact.  (`String.toUpper` itself is
avoided only because its byte-level implementation does not reduce inside
the kernel.) -/
def asciiUpper (s : String) : String := ⟨s.data.map Char.toUpper⟩

/-- The regexp whitespace class `\s` (`[\t\n\v\f\r ]`). -/
def isSpaceChar (c : Char) : Bool := c.toNat == 32 || (9 ≤ c.toNat && c.toNat ≤ 13)

/-- The regexp digit class `\d` (`[0-9]`). -/
def isDigitChar (c : Char) : Bool := 48 ≤ c.toNat && c.toNat ≤ 57

/-- A regexp word character (the class defining the `\b` boundaries of the
keyword alternation, and the continuation class of `Ident`:
`[a-zA-Z0-9_]`). -/
def isWordChar (c : Char) : Bool :=
  (65 ≤ c.toNat && c.toNat ≤ 90) || (97 ≤ c.toNat && c.toNat ≤ 122) ||
    isDigitChar c || c.toNat == 95

/-- The leading character class of `Ident`: `[a-zA-Z_]`. -/
def isIdentStart (c : Char) : Bool :=
  (65 ≤ c.toNat && c.toNat ≤ 90) || (97 ≤ c.toNat && c.toNat ≤ 122) || c.toNat == 95

/-- The single-character operator class of the lexer:
`[-+*/%:?,.()=<>\[\]{}]`. -/
def opChars : List Char :=
  ['-', '+', '*', '/', '%', ':', '?', ',', '.', '(', ')', '=', '<', '>',
   '[', ']', '{', '}']

/-- The optional sign `[-+]?`: the consumed lexeme part and the rest. -/
def scanSign (l : List Char) : List Char × List Char :=
  match l with
  | c :: rest => if c == '-' || c == '+' then ([c], rest) else ([], l)
  | [] => ([], l)

/-- The optional exponent `([eE][-+]?\d+)?`: only consumed when its digits
are present (greedy matching backtracks over a dangling `e`). -/
def scanExpPart (r4 : List Char) : List Char × List Char :=
  match r4 with
  | e :: r5 =>
    if e == 'e' || e == 'E' then
      let se := scanSign r5
      let ed := se.2.takeWhile isDigitChar
      if ed.isEmpty then ([], r4)
      else (e :: se.1 ++ ed, se.2.dropWhile isDigitChar)
    else ([], r4)
  | [] => ([], r4)

/-- Scanner for the `Number` group `[-+]?\d*\.?\d+([eE][-+]?\d+)?`, matched
greedily at the start of the input.  Returns the lexeme and the remaining
characters.  The dot of `\.?\d+` is only consumed when at least one digit
follows it (otherwise the greedy match backtracks over it); without the dot,
the mandatory `\d+` forces the integer digit run to be non-empty. -/
def scanNumber (l : List Char) : Option (List Char × List Char) :=
  let sr := scanSign l
  let intd := sr.2.takeWhile isDigitChar
  let r2 := sr.2.dropWhile isDigitChar
  let core? : Option (List Char × List Char) :=
    match r2 with
    | '.' :: r3 =>
      if isDigitChar (r3.headD ' ') then
        some (intd ++ '.' :: r3.takeWhile isDigitChar, r3.dropWhile isDigitChar)
      else if intd.isEmpty then none else some (intd, r2)
    | _ => if intd.isEmpty then none else some (intd, r2)
  match core? with
  | none => none
  | some (core, r4) =>
    let ep := scanExpPart r4
    some (sr.1 ++ core ++ ep.1, ep.2)

/-- Scanner for the `Operators` group `<>|!=|<=|>=|[-+*/%:?,.()=<>\[\]{}]`
(two-character alternatives first, as in the source alternation). -/
def scanOperator : List Char → Option (String × List Char)
  | '<' :: '>' :: r => some ("<>", r)
  | '!' :: '=' :: r => some ("!=", r)
  | '<' :: '=' :: r => some ("<=", r)
  | '>' :: '=' :: r => some (">=", r)
  | c :: r => if opChars.contains c then some (String.mk [c], r) else none
  | [] => none

/-- One pass of the regexp lexer (`lexer.Regexp`), fuelled.  Each step
consumes at least one character, so fuel `length + 1` (supplied by
`lexChars`) is sufficient; exhausted fuel yields `none`.  An input on which
no alternative matches is a `LexError`, modelled as `none`. -/
def lexGo : Nat → List Char → Option (List Token)
  | _, [] => some []
  | 0, _ :: _ => none
  | f + 1, c :: cs =>
    if isSpaceChar c then
      -- `(\s+)` : unnamed group, token elided
      lexGo f cs
    else if isIdentStart c then
      -- `\b(?P<Keyword>(?i)…)\b` and `(?P<Ident>[a-zA-Z_][a-zA-Z0-9_]*)`:
      -- both match a maximal word-character run starting with [a-zA-Z_];
      -- the run is a Keyword iff its upper-casing is in the alternation
      -- (no keyword is a strict prefix of a longer word match, thanks to
      -- the trailing \b), otherwise an Ident.
      let run := c :: cs.takeWhile isWordChar
      let rest := cs.dropWhile isWordChar
      let s : String := String.mk run
      let k : TokenKind :=
        if lexerKeywords.contains (asciiUpper s) then .keyword else .ident
      (lexGo f rest).map (⟨k, s⟩ :: ·)
    else if c == '`' then
      -- "|(?P<QuotedIdent>`[^`]+`)" ; UnquoteIdent() strips the back-ticks
      let content := cs.takeWhile (· ≠ '`')
      match cs.dropWhile (· ≠ '`') with
      | _ :: rest =>
        if content.isEmpty then none
        else (lexGo f rest).map (⟨.quotedIdent, String.mk content⟩ :: ·)
      | [] => none
    else
      match scanNumber (c :: cs) with
      | some (lexeme, rest) =>
        (lexGo f rest).map (⟨.number, String.mk lexeme⟩ :: ·)
      | none =>
        if c == '\'' || c == '"' then
          -- `(?P<String>'[^']*'|"[^"]*")` ; Unquote("String") strips quotes
          let content := cs.takeWhile (· ≠ c)
          match cs.dropWhile (· ≠ c) with
          | _ :: rest => (lexGo f rest).map (⟨.str, String.mk content⟩ :: ·)
          | [] => none
        else if c == ';' then
          -- `|;` : unnamed group, token elided
          lexGo f cs
        else
          match scanOperator (c :: cs) with
          | some (o, rest) => (lexGo f rest).map (⟨.op, o⟩ :: ·)
          | none => none

/-- The lexer: tokenize a whole character list (`lexer.Regexp` applied until
the input is exhausted). -/
def lexChars (l : List Char) : Option (List Token) := lexGo (l.length + 1) l

/-! ## Captured-value conversions -/

/-- Digits to a natural number (base 10). -/
def digitsToNat (l : List Char) : Nat :=
  l.foldl (fun a c => a * 10 + (c.toNat - 48)) 0

/-- participle's capture of a token into an `int`/`int64` field uses
`strconv.ParseInt`: an optional sign followed by decimal digits (the only
shape an integer capture from this lexer's `Number` lexemes can take; a
lexeme with `.` or an exponent fails the conversion). -/
def parseGoInt (s : String) : Option Int :=
  match s.data with
  | [] => none
  | c :: rest =>
    let signAndDigits : Bool × List Char :=
      if c == '-' then (true, rest)
      else if c == '+' then (false, rest)
      else (false, c :: rest)
    let ds := signAndDigits.2
    if ds.isEmpty || !(ds.all isDigitChar) then none
    else some (if signAndDigits.1 then -(digitsToNat ds : Int) else (digitsToNat ds : Int))

/-- The exact value denoted by a decimal lexeme, in canonical scientific
form: the value is `sig * 10 ^ exp`, with `sig` not divisible by ten (and
`exp = 0` when `sig = 0`), so two lexemes denote the same rational iff their
canonical forms are equal.  This is the embedding of the `float64` capture
value (see the header note). -/
structure DecValue where
  sig : Int
  exp : Int
  deriving DecidableEq, Repr

/-- Strip factors of ten from the significand (fuelled by the digit
count). -/
def canonDec : Nat → Int → Int → DecValue
  | 0, s, e => ⟨s, e⟩
  | f + 1, s, e =>
    if s = 0 then ⟨0, 0⟩
    else if s % 10 = 0 then canonDec f (s / 10) (e + 1)
    else ⟨s, e⟩

/-- participle's capture of a `Number` token into the `*float64` field uses
`strconv.ParseFloat`.  We embed the captured value as the exact decimal value
of the lexeme `[-+]?\d*\.?\d+([eE][-+]?\d+)?` in canonical form (see the
header note: every fact proved below only involves lexemes on which
`ParseFloat` is exact). -/
def parseDecimalValue (s : String) : Option DecValue :=
  -- split off an exponent part
  let mantAndExp : List Char × Option (List Char) :=
    match s.data.splitOnP (fun c => c == 'e' || c == 'E') with
    | [m] => (m, none)
    | [m, e] => (m, some e)
    | _ => ([], none)
  let mant := mantAndExp.1
  let signAndRest : Bool × List Char :=
    match mant with
    | c :: rest =>
      if c == '-' then (true, rest)
      else if c == '+' then (false, rest) else (false, mant)
    | [] => (false, mant)
  let parts := signAndRest.2.splitOnP (fun c => c == '.')
  let intFrac : Option (List Char × List Char) :=
    match parts with
    | [i] => if i ≠ [] ∧ i.all isDigitChar then some (i, []) else none
    | [i, fr] => if fr ≠ [] ∧ i.all isDigitChar ∧ fr.all isDigitChar then some (i, fr) else none
    | _ => none
  match intFrac with
  | none => none
  | some (i, fr) =>
    let expVal : Option Int :=
      match mantAndExp.2 with
      | none => some 0
      | some e => parseGoInt (String.mk e)
    match expVal with
    | none => none
    | some ex =>
      let m : Nat := digitsToNat i * 10 ^ fr.length + digitsToNat fr
      let signed : Int := if signAndRest.1 then -(m : Int) else (m : Int)
      some (canonDec (i.length + fr.length) signed (ex - (fr.length : Int)))

/-! ## The AST

Each structure mirrors the Go struct of the same name; Go pointer fields
that are grammar alternatives (at most one set) or optional clauses become
`Option`, required `@@` pointer fields become plain fields, and Go zero
values (`nil`, `false`, `""`) are the `Option.none`/`false`/`""` defaults
produced by the parser when a branch does not fire. -/

/-- Go: `type Scalar struct { Number *float64; Str *string; Boolean *Boolean;
Null bool }`.  `Boolean.Capture` stores `strings.ToUpper(v) == "TRUE"`. -/
structure Scalar where
  Number : Option DecValue
  Str : Option String
  Boolean : Option Bool
  Null : Bool
  deriving DecidableEq, Repr

/-- The zero `Scalar` (all captures unset). -/
def zeroScalar : Scalar := ⟨none, none, none, false⟩

/-- Go: `type Value struct { Scalar; PlaceHolder *string; PositionalPlaceholder
bool }` with grammar `Scalar | @":" @Ident | @"?"`.  Both the `:` token and the
identifier are captured into `PlaceHolder`; participle concatenates repeated
string captures into the field. -/
structure Value where
  Scalar : Scalar
  PlaceHolder : Option String
  PositionalPlaceholder : Bool
  deriving DecidableEq, Repr

/-- The zero `Value`. -/
def zeroValue : Value := ⟨zeroScalar, none, false⟩

/-- Go: `type PathFragment struct { Symbol string; Indexes []int }` with
grammar `( @Ident | @QuotedIdent ) ( "[" @Number "]" )*`. -/
structure PathFragment where
  Symbol : String
  Indexes : List Int
  deriving DecidableEq, Repr

/-- Go: `type DocumentPath struct { Fragment []*PathFragment }` with grammar
`@@ ( "." @@ )*`. -/
structure DocumentPath where
  Fragment : List PathFragment
  deriving DecidableEq, Repr

/-- Go: `type Operand struct { Value *Value; SymbolRef *DocumentPath }`
(grammar alternatives). -/
structure Operand where
  Value : Option Value
  SymbolRef : Option DocumentPath
  deriving DecidableEq, Repr

/-- Go: `type Compare struct { Operator string; Operand *Operand }`. -/
structure Compare where
  Operator : String
  Operand : Operand
  deriving DecidableEq, Repr

/-- Go: `type Between struct { Start *Operand; End *Operand }`. -/
structure Between where
  Start : Operand
  End : Operand
  deriving DecidableEq, Repr

/-- Go: `type In struct { Values []*Value }`. -/
structure In where
  Values : List Value
  deriving DecidableEq, Repr

/-- Go: `type ConditionRHS struct { Compare *Compare; Between *Between;
In *In }` with grammar `@@ | "BETWEEN" @@ | "IN" "(" @@ ")"`. -/
structure ConditionRHS where
  Compare : Option Compare
  Between : Option Between
  In : Option In
  deriving DecidableEq, Repr

/-- Go: `type FunctionArgument struct { DocumentPath *DocumentPath;
Value *Value }` (grammar alternatives). -/
structure FunctionArgument where
  DocumentPath : Option DocumentPath
  Value : Option Value
  deriving DecidableEq, Repr

/-- Go: `type FunctionExpression struct { Function string;
Args []*FunctionArgument }` with grammar `@Ident "(" @@ ( "," @@ )* ")"`. -/
structure FunctionExpression where
  Function : String
  Args : List FunctionArgument
  deriving DecidableEq, Repr

/-- Go: `type ConditionOperand struct { Operand *DocumentPath;
ConditionRHS *ConditionRHS }` (both fields required by the grammar). -/
structure ConditionOperand where
  Operand : DocumentPath
  ConditionRHS : ConditionRHS
  deriving DecidableEq, Repr

/- The boolean expression layer is mutually recursive through
`ParenthesizedExpression` and `NotCondition`:

```
type ConditionExpression struct { Or []*AndExpression }
type AndExpression struct { And []*Condition }
type ParenthesizedExpression struct { ConditionExpression *ConditionExpression }
type Condition struct { Parenthesized *ParenthesizedExpression; Not *NotCondition;
                        Operand *ConditionOperand; Function *FunctionExpression }
type NotCondition struct { Condition *Condition }
```
-/

mutual
/-- Go: `ConditionExpression` (`@@ ( "OR" @@ )*`). -/
inductive ConditionExpression where
  | mk (Or : List AndExpression)

/-- Go: `AndExpression` (`@@ ( "AND" @@ )*`). -/
inductive AndExpression where
  | mk (And : List Condition)

/-- Go: `ParenthesizedExpression`. -/
inductive ParenthesizedExpression where
  | mk (ConditionExpression : ConditionExpression)

/-- Go: `Condition` (`"(" @@ ")" | "NOT" @@ | @@ | @@`). -/
inductive Condition where
  | mk (Parenthesized : Option ParenthesizedExpression)
       (Not : Option NotCondition)
       (Operand : Option ConditionOperand)
       (Function : Option FunctionExpression)

/-- Go: `NotCondition`. -/
inductive NotCondition where
  | mk (Condition : Condition)
end

/- JSON literals inside INSERT rows:

```
type JSONObjectEntry struct { Key string; Value *JSONValue }
type JSONObject struct { Entries []*JSONObjectEntry }
type JSONArray struct { Entries []*JSONValue }
type JSONValue struct { Scalar; Object *JSONObject; Array *JSONArray }
```
-/

mutual
/-- Go: `JSONValue` (embedded `Scalar` alternatives, `| @@` object,
`| @@` array). -/
inductive JSONValue where
  | mk (Scalar : Scalar) (Object : Option JSONObject) (Array : Option JSONArray)

/-- Go: `JSONObject` (`"{" (@@ ("," @@)* ","?)? "}"`). -/
inductive JSONObject where
  | mk (Entries : List JSONObjectEntry)

/-- Go: `JSONObjectEntry` (`@(Ident | String) ":" @@`). -/
inductive JSONObjectEntry where
  | mk (Key : String) (Value : JSONValue)

/-- Go: `JSONArray` (`"[" (@@ ("," @@)* ","?)? "]"`). -/
inductive JSONArray where
  | mk (Entries : List JSONValue)
end

/-- Go: `type InsertTerminal struct { Value; Object *JSONObject }`: the
embedded `Value` alternatives are tried first, then `| @@` for an object. -/
structure InsertTerminal where
  Value : Value
  Object : Option JSONObject

/-- Go: `type Insert struct { Into string; Values []*InsertTerminal;
Returning *string }` with grammar
`"INTO" ( @Ident ( @"." @Ident )* | @QuotedIdent )
 "VALUES" "(" @@ ")" ( "," "(" @@ ")" )*
 ( "RETURNING" @( "NONE" | "ALL_OLD" ) )?`. -/
structure Insert where
  Into : String
  Values : List InsertTerminal
  Returning : Option String

/-- Go: `type ProjectionColumn struct { Function *FunctionExpression;
DocumentPath *DocumentPath }` (alternatives, function first). -/
structure ProjectionColumn where
  Function : Option FunctionExpression
  DocumentPath : Option DocumentPath
  deriving DecidableEq, Repr

/-- Go: `type ProjectionExpression struct { All bool; Columns
[]*ProjectionColumn }` with grammar
`( @"*" | "document" "(" @"*" ")" ) | @@ ( "," @@ )*`. -/
structure ProjectionExpression where
  All : Bool
  Columns : List ProjectionColumn
  deriving DecidableEq, Repr

/-- Go: `type Select struct { Projection *ProjectionExpression; From string;
Index *string; Where *AndExpression; Descending *ScanDescending; Limit *int }`.
`ScanDescending.Capture` stores `strings.ToUpper(v) == "DESC"`. -/
structure Select where
  Projection : ProjectionExpression
  From : String
  Index : Option String
  Where : Option AndExpression
  Descending : Option Bool
  Limit : Option Int

/-- Go: `type Projection struct { KeysOnly bool; All bool; Include []string }`
(the CREATE TABLE projection clause). -/
structure TableProjection where
  KeysOnly : Bool
  All : Bool
  Include : List String
  deriving DecidableEq, Repr

/-- Go: `type ProvisionedThroughput struct { ReadCapacityUnits int64;
WriteCapacityUnits int64 }`. -/
structure ProvisionedThroughput where
  ReadCapacityUnits : Int
  WriteCapacityUnits : Int
  deriving DecidableEq, Repr

/-- Go: `type GlobalSecondaryIndex struct { … }`. -/
structure GlobalSecondaryIndex where
  Name : String
  PartitionKey : String
  SortKey : String
  Projection : TableProjection
  ProvisionedThroughput : ProvisionedThroughput
  deriving DecidableEq, Repr

/-- Go: `type LocalSecondaryIndex struct { … }`. -/
structure LocalSecondaryIndex where
  Name : String
  SortKey : String
  Projection : TableProjection
  deriving DecidableEq, Repr

/-- Go: `type TableAttr struct { Name string; Type string; Key string }`
(`Type` is a Lean keyword, renamed `Type_`). -/
structure TableAttr where
  Name : String
  Type_ : String
  Key : String
  deriving DecidableEq, Repr

/-- Go: `type CreateTableEntry struct { GlobalSecondaryIndex …; LocalSecondaryIndex
…; ProvisionedThroughput …; Attr … }` (alternatives, `Attr` last). -/
structure CreateTableEntry where
  GlobalSecondaryIndex : Option GlobalSecondaryIndex
  LocalSecondaryIndex : Option LocalSecondaryIndex
  ProvisionedThroughput : Option ProvisionedThroughput
  Attr : Option TableAttr
  deriving DecidableEq, Repr

/-- Go: `type CreateTable struct { Table string; Entries []*CreateTableEntry }`
with grammar `@(Ident | QuotedIdent) "(" @@ ("," @@)* ")"`. -/
structure CreateTable where
  Table : String
  Entries : List CreateTableEntry
  deriving DecidableEq, Repr

/-- Go: `type AST struct { Select *Select; Insert *Insert; Replace *Insert;
CreateTable *CreateTable }` with grammar
`( "SELECT" @@ | "INSERT" @@ | "REPLACE" @@ | "CREATE" "TABLE" @@ ) ";"?`. -/
structure AST where
  Select : Option DynamoSql.Select
  Insert : Option DynamoSql.Insert
  Replace : Option DynamoSql.Insert
  CreateTable : Option DynamoSql.CreateTable

/-! ## The parser

Recursive descent over the token list, mirroring the participle grammar tags
struct by struct.  A parse function returns `some (node, rest)` on success.
Backtracking: an alternative, optional group or repetition iteration that
fails restores the token position at its start (see the header note on
participle's bounded lookahead). -/

/-- Literal terminal matching.  `participle.CaseInsensitive("Keyword")` makes
literal matches against tokens of type `Keyword` case-insensitive
(`strings.EqualFold`); matches against all other token types compare
exactly. -/
def litMatches (lit : String) (t : Token) : Bool :=
  if t.kind == TokenKind.keyword then asciiUpper t.value == asciiUpper lit
  else t.value == lit

/-- Match (and capture) a literal terminal; the captured value is the token's
lexeme as written, not the literal. -/
def matchLit (lit : String) : Tokens → Option (String × Tokens)
  | t :: rest => if litMatches lit t then some (t.value, rest) else none
  | [] => none

/-- Match (and capture) a token-type terminal such as `@Ident` or
`@Number`. -/
def matchKindTok (k : TokenKind) : Tokens → Option (String × Tokens)
  | t :: rest => if t.kind == k then some (t.value, rest) else none
  | [] => none

/-- Repetition `( sep elem )*` for a fuel-free element parser.  An iteration
whose element fails after the separator matched backtracks over the
separator and ends the loop.  Fuel `length + 1` (supplied by `sepBy1`) is
sufficient since every iteration consumes at least the separator. -/
def sepTail (p : Tokens → Option (α × Tokens)) (sep : String) :
    Nat → Tokens → Option (List α × Tokens)
  | 0, _ => none
  | f + 1, ts =>
    match ts with
    | t :: rest =>
      if litMatches sep t then
        match p rest with
        | some (a, r) => (sepTail p sep f r).map (fun x => (a :: x.1, x.2))
        | none => some ([], ts)
      else some ([], ts)
    | [] => some ([], ts)

/-- `elem ( sep elem )*`. -/
def sepBy1 (p : Tokens → Option (α × Tokens)) (sep : String) (ts : Tokens) :
    Option (List α × Tokens) :=
  match p ts with
  | some (a, r) => (sepTail p sep (r.length + 1) r).map (fun x => (a :: x.1, x.2))
  | none => none

/-- `PathFragment`'s index loop `( "[" @Number "]" )*`.  A number capture
that fails integer conversion is a capture error (hard failure); an
iteration whose pattern does not match ends the loop. -/
def parseIndexes : Tokens → Option (List Int × Tokens)
  | t1 :: t2 :: t3 :: rest =>
    if litMatches "[" t1 then
      if t2.kind == TokenKind.number && litMatches "]" t3 then
        match parseGoInt t2.value with
        | some i => (parseIndexes rest).map (fun x => (i :: x.1, x.2))
        | none => none
      else some ([], t1 :: t2 :: t3 :: rest)
    else some ([], t1 :: t2 :: t3 :: rest)
  | ts => some ([], ts)

/-- Go `PathFragment`: `( @Ident | @QuotedIdent ) ( "[" @Number "]" )*`. -/
def parsePathFragment : Tokens → Option (PathFragment × Tokens)
  | t :: rest =>
    if t.kind == TokenKind.ident || t.kind == TokenKind.quotedIdent then
      (parseIndexes rest).map (fun x => (⟨t.value, x.1⟩, x.2))
    else none
  | [] => none

/-- Go `DocumentPath`: `@@ ( "." @@ )*`. -/
def parseDocumentPath (ts : Tokens) : Option (DocumentPath × Tokens) :=
  (sepBy1 parsePathFragment "." ts).map (fun x => (⟨x.1⟩, x.2))

/-- Go `Scalar`: `@Number | @String | @("TRUE" | "FALSE") | @"NULL"`.
A number whose `ParseFloat` conversion fails is a capture error (cannot
happen for this lexer's `Number` lexemes). -/
def parseScalar (ts : Tokens) : Option (Scalar × Tokens) :=
  match matchKindTok .number ts with
  | some (v, r) =>
    match parseDecimalValue v with
    | some q => some ({ zeroScalar with Number := some q }, r)
    | none => none
  | none =>
    match matchKindTok .str ts with
    | some (v, r) => some ({ zeroScalar with Str := some v }, r)
    | none =>
      match matchLit "TRUE" ts with
      | some (v, r) => some ({ zeroScalar with Boolean := some (asciiUpper v == "TRUE") }, r)
      | none =>
        match matchLit "FALSE" ts with
        | some (v, r) => some ({ zeroScalar with Boolean := some (asciiUpper v == "TRUE") }, r)
        | none =>
          match matchLit "NULL" ts with
          | some (_, r) => some ({ zeroScalar with Null := true }, r)
          | none => none

/-- Go `Value`: the embedded `Scalar` alternatives, then
`| @":" @Ident | @"?"`.  The two captures of the placeholder branch are
concatenated into the `PlaceHolder` field, so the leading colon is kept. -/
def parseValue (ts : Tokens) : Option (Value × Tokens) :=
  match parseScalar ts with
  | some (sc, r) => some ({ zeroValue with Scalar := sc }, r)
  | none =>
    match matchLit ":" ts with
    | some (v1, r1) =>
      match matchKindTok .ident r1 with
      | some (v2, r2) => some ({ zeroValue with PlaceHolder := some (v1 ++ v2) }, r2)
      | none => none
    | none =>
      match matchLit "?" ts with
      | some (_, r) => some ({ zeroValue with PositionalPlaceholder := true }, r)
      | none => none

/-- Go `Operand`: `@@ | @@` (value first, then document path). -/
def parseOperand (ts : Tokens) : Option (Operand × Tokens) :=
  match parseValue ts with
  | some (v, r) => some (⟨some v, none⟩, r)
  | none =>
    match parseDocumentPath ts with
    | some (p, r) => some (⟨none, some p⟩, r)
    | none => none

/-- Go `Compare`: `@( "<>" | "<=" | ">=" | "=" | "<" | ">" | "!=" ) @@`. -/
def parseCompare (ts : Tokens) : Option (Compare × Tokens) :=
  let oprtr : Option (String × Tokens) :=
    match matchLit "<>" ts with
    | some x => some x
    | none => match matchLit "<=" ts with
      | some x => some x
      | none => match matchLit ">=" ts with
        | some x => some x
        | none => match matchLit "=" ts with
          | some x => some x
          | none => match matchLit "<" ts with
            | some x => some x
            | none => match matchLit ">" ts with
              | some x => some x
              | none => matchLit "!=" ts
  match oprtr with
  | some (o, r) =>
    match parseOperand r with
    | some (op2, r2) => some (⟨o, op2⟩, r2)
    | none => none
  | none => none

/-- Go `Between`: `@@ "AND" @@`. -/
def parseBetween (ts : Tokens) : Option (Between × Tokens) :=
  match parseOperand ts with
  | some (s, r1) =>
    match matchLit "AND" r1 with
    | some (_, r2) =>
      match parseOperand r2 with
      | some (e, r3) => some (⟨s, e⟩, r3)
      | none => none
    | none => none
  | none => none

/-- Go `In`: `@@ ( "," @@ )*`. -/
def parseIn (ts : Tokens) : Option (In × Tokens) :=
  (sepBy1 parseValue "," ts).map (fun x => (⟨x.1⟩, x.2))

/-- Go `ConditionRHS`: `@@ | "BETWEEN" @@ | "IN" "(" @@ ")"`. -/
def parseConditionRHS (ts : Tokens) : Option (ConditionRHS × Tokens) :=
  match parseCompare ts with
  | some (c, r) => some (⟨some c, none, none⟩, r)
  | none =>
    match matchLit "BETWEEN" ts with
    | some (_, r1) =>
      match parseBetween r1 with
      | some (b, r2) => some (⟨none, some b, none⟩, r2)
      | none => none
    | none =>
      match matchLit "IN" ts with
      | some (_, r1) =>
        match matchLit "(" r1 with
        | some (_, r2) =>
          match parseIn r2 with
          | some (i, r3) =>
            match matchLit ")" r3 with
            | some (_, r4) => some (⟨none, none, some i⟩, r4)
            | none => none
          | none => none
        | none => none
      | none => none

/-- Go `FunctionArgument`: `@@ | @@` (document path first, then value). -/
def parseFunctionArgument (ts : Tokens) : Option (FunctionArgument × Tokens) :=
  match parseDocumentPath ts with
  | some (p, r) => some (⟨some p, none⟩, r)
  | none =>
    match parseValue ts with
    | some (v, r) => some (⟨none, some v⟩, r)
    | none => none

/-- Go `FunctionExpression`: `@Ident "(" @@ ( "," @@ )* ")"`. -/
def parseFunctionExpression (ts : Tokens) : Option (FunctionExpression × Tokens) :=
  match matchKindTok .ident ts with
  | some (f, r1) =>
    match matchLit "(" r1 with
    | some (_, r2) =>
      match sepBy1 parseFunctionArgument "," r2 with
      | some (args, r3) =>
        match matchLit ")" r3 with
        | some (_, r4) => some (⟨f, args⟩, r4)
        | none => none
      | none => none
    | none => none
  | none => none

/-- Go `ConditionOperand`: `@@ @@` (document path, then RHS; both
required). -/
def parseConditionOperand (ts : Tokens) : Option (ConditionOperand × Tokens) :=
  match parseDocumentPath ts with
  | some (p, r1) =>
    match parseConditionRHS r1 with
    | some (rhs, r2) => some (⟨p, rhs⟩, r2)
    | none => none
  | none => none

mutual
/-- Go `ConditionExpression`: `@@ ( "OR" @@ )*` (fuelled; exhausted fuel is
`none`, and `parseConditionExpressionT` supplies sufficient fuel). -/
def parseConditionExpression : Nat → Tokens → Option (ConditionExpression × Tokens)
  | 0, _ => none
  | f + 1, ts =>
    match parseAndExpression f ts with
    | some (a, r) => (parseOrTail f r).map (fun x => (⟨a :: x.1⟩, x.2))
    | none => none

/-- `( "OR" @@ )*`. -/
def parseOrTail : Nat → Tokens → Option (List AndExpression × Tokens)
  | 0, _ => none
  | f + 1, ts =>
    match ts with
    | t :: rest =>
      if litMatches "OR" t then
        match parseAndExpression f rest with
        | some (a, r) => (parseOrTail f r).map (fun x => (a :: x.1, x.2))
        | none => some ([], ts)
      else some ([], ts)
    | [] => some ([], ts)

/-- Go `AndExpression`: `@@ ( "AND" @@ )*`. -/
def parseAndExpression : Nat → Tokens → Option (AndExpression × Tokens)
  | 0, _ => none
  | f + 1, ts =>
    match parseCondition f ts with
    | some (c, r) => (parseAndTail f r).map (fun x => (⟨c :: x.1⟩, x.2))
    | none => none

/-- `( "AND" @@ )*`. -/
def parseAndTail : Nat → Tokens → Option (List Condition × Tokens)
  | 0, _ => none
  | f + 1, ts =>
    match ts with
    | t :: rest =>
      if litMatches "AND" t then
        match parseCondition f rest with
        | some (c, r) => (parseAndTail f r).map (fun x => (c :: x.1, x.2))
        | none => some ([], ts)
      else some ([], ts)
    | [] => some ([], ts)

/-- Go `Condition`:
`"(" @@ ")" | "NOT" @@ | @@ (operand) | @@ (function)`. -/
def parseCondition : Nat → Tokens → Option (Condition × Tokens)
  | 0, _ => none
  | f + 1, ts =>
    let paren : Option (Condition × Tokens) :=
      match matchLit "(" ts with
      | some (_, r1) =>
        match parseConditionExpression f r1 with
        | some (ce, r2) =>
          match matchLit ")" r2 with
          | some (_, r3) => some (⟨some ⟨ce⟩, none, none, none⟩, r3)
          | none => none
        | none => none
      | none => none
    match paren with
    | some x => some x
    | none =>
      let notC : Option (Condition × Tokens) :=
        match matchLit "NOT" ts with
        | some (_, r1) =>
          match parseCondition f r1 with
          | some (c, r2) => some (⟨none, some ⟨c⟩, none, none⟩, r2)
          | none => none
        | none => none
      match notC with
      | some x => some x
      | none =>
        match parseConditionOperand ts with
        | some (co, r) => some (⟨none, none, some co, none⟩, r)
        | none =>
          match parseFunctionExpression ts with
          | some (fe, r) => some (⟨none, none, none, some fe⟩, r)
          | none => none
end

/-- Sufficient fuel for the boolean-expression and JSON parsers: every fuel
step either consumes a token or is one of at most three steps between
consumed tokens. -/
def exprFuel (ts : Tokens) : Nat := 4 * ts.length + 4

/-- `ConditionExpression` with computed fuel. -/
def parseConditionExpressionT (ts : Tokens) : Option (ConditionExpression × Tokens) :=
  parseConditionExpression (exprFuel ts) ts

/-- `AndExpression` with computed fuel (the `WHERE` clause's type). -/
def parseAndExpressionT (ts : Tokens) : Option (AndExpression × Tokens) :=
  parseAndExpression (exprFuel ts) ts

mutual
/-- Go `JSONValue`: embedded `Scalar` alternatives, then `| @@` object, then
`| @@` array. -/
def parseJSONValue : Nat → Tokens → Option (JSONValue × Tokens)
  | 0, _ => none
  | f + 1, ts =>
    match parseScalar ts with
    | some (sc, r) => some (⟨sc, none, none⟩, r)
    | none =>
      match parseJSONObject f ts with
      | some (o, r) => some (⟨zeroScalar, some o, none⟩, r)
      | none =>
        match parseJSONArray f ts with
        | some (a, r) => some (⟨zeroScalar, none, some a⟩, r)
        | none => none

/-- Go `JSONObject`: `"{" (@@ ("," @@)* ","?)? "}"` — entries are optional
(empty object) and a trailing comma is allowed. -/
def parseJSONObject : Nat → Tokens → Option (JSONObject × Tokens)
  | 0, _ => none
  | f + 1, ts =>
    match matchLit "\x7b" ts with
    | some (_, r1) =>
      match parseJSONEntry f r1 with
      | some (e, r2) =>
        match parseJSONEntryTail f r2 with
        | some (es, r3) =>
          let r4 := match matchLit "," r3 with
            | some (_, r) => r
            | none => r3
          match matchLit "\x7d" r4 with
          | some (_, r5) => some (⟨e :: es⟩, r5)
          | none => none
        | none => none
      | none =>
        match matchLit "\x7d" r1 with
        | some (_, r2) => some (⟨[]⟩, r2)
        | none => none
    | none => none

/-- Go `JSONObjectEntry`: `@(Ident | String) ":" @@`. -/
def parseJSONEntry : Nat → Tokens → Option (JSONObjectEntry × Tokens)
  | 0, _ => none
  | f + 1, ts =>
    match ts with
    | t :: r1 =>
      if t.kind == TokenKind.ident || t.kind == TokenKind.str then
        match matchLit ":" r1 with
        | some (_, r2) =>
          match parseJSONValue f r2 with
          | some (v, r3) => some (⟨t.value, v⟩, r3)
          | none => none
        | none => none
      else none
    | [] => none

/-- `( "," @@ )*` over object entries. -/
def parseJSONEntryTail : Nat → Tokens → Option (List JSONObjectEntry × Tokens)
  | 0, _ => none
  | f + 1, ts =>
    match ts with
    | t :: rest =>
      if litMatches "," t then
        match parseJSONEntry f rest with
        | some (e, r) => (parseJSONEntryTail f r).map (fun x => (e :: x.1, x.2))
        | none => some ([], ts)
      else some ([], ts)
    | [] => some ([], ts)

/-- Go `JSONArray`: `"[" (@@ ("," @@)* ","?)? "]"`. -/
def parseJSONArray : Nat → Tokens → Option (JSONArray × Tokens)
  | 0, _ => none
  | f + 1, ts =>
    match matchLit "[" ts with
    | some (_, r1) =>
      match parseJSONValue f r1 with
      | some (v, r2) =>
        match parseJSONValueTail f r2 with
        | some (vs, r3) =>
          let r4 := match matchLit "," r3 with
            | some (_, r) => r
            | none => r3
          match matchLit "]" r4 with
          | some (_, r5) => some (⟨v :: vs⟩, r5)
          | none => none
        | none => none
      | none =>
        match matchLit "]" r1 with
        | some (_, r2) => some (⟨[]⟩, r2)
        | none => none
    | none => none

/-- `( "," @@ )*` over array values. -/
def parseJSONValueTail : Nat → Tokens → Option (List JSONValue × Tokens)
  | 0, _ => none
  | f + 1, ts =>
    match ts with
    | t :: rest =>
      if litMatches "," t then
        match parseJSONValue f rest with
        | some (v, r) => (parseJSONValueTail f r).map (fun x => (v :: x.1, x.2))
        | none => some ([], ts)
      else some ([], ts)
    | [] => some ([], ts)
end

/-- Go `InsertTerminal`: the embedded `Value` alternatives, then `| @@` for a
JSON object. -/
def parseInsertTerminal (f : Nat) (ts : Tokens) : Option (InsertTerminal × Tokens) :=
  match parseValue ts with
  | some (v, r) => some (⟨v, none⟩, r)
  | none =>
    match parseJSONObject f ts with
    | some (o, r) => some (⟨zeroValue, some o⟩, r)
    | none => none

/-- One `Insert` row: `"(" @@ ")"`. -/
def parseInsertRow (f : Nat) (ts : Tokens) : Option (InsertTerminal × Tokens) :=
  match matchLit "(" ts with
  | some (_, r1) =>
    match parseInsertTerminal f r1 with
    | some (it, r2) =>
      match matchLit ")" r2 with
      | some (_, r3) => some (it, r3)
      | none => none
    | none => none
  | none => none

/-- `( "," "(" @@ ")" )*`. -/
def parseInsertRowTail : Nat → Tokens → Option (List InsertTerminal × Tokens)
  | 0, _ => none
  | f + 1, ts =>
    match ts with
    | t :: rest =>
      if litMatches "," t then
        match parseInsertRow f rest with
        | some (it, r) => (parseInsertRowTail f r).map (fun x => (it :: x.1, x.2))
        | none => some ([], ts)
      else some ([], ts)
    | [] => some ([], ts)

/-- A dotted table name:
`( @Ident ( @"." @Ident )* | @QuotedIdent )` — all captured lexemes are
concatenated into the string field (so `a.b` captures as `"a.b"`). -/
def parseDottedTail : Tokens → String → String × Tokens
  | t1 :: t2 :: rest, acc =>
    if litMatches "." t1 && t2.kind == TokenKind.ident then
      parseDottedTail rest (acc ++ t1.value ++ t2.value)
    else (acc, t1 :: t2 :: rest)
  | ts, acc => (acc, ts)

/-- See `parseDottedTail`. -/
def parseDottedName : Tokens → Option (String × Tokens)
  | t :: rest =>
    if t.kind == TokenKind.ident then
      some (parseDottedTail rest t.value)
    else if t.kind == TokenKind.quotedIdent then some (t.value, rest)
    else none
  | [] => none

/-- Go `Insert` (used for both `INSERT` and `REPLACE`):
`"INTO" name "VALUES" "(" @@ ")" ( "," "(" @@ ")" )*
 ( "RETURNING" @( "NONE" | "ALL_OLD" ) )?`. -/
def parseInsert (ts : Tokens) : Option (Insert × Tokens) :=
  match matchLit "INTO" ts with
  | some (_, r1) =>
    match parseDottedName r1 with
    | some (into, r2) =>
      match matchLit "VALUES" r2 with
      | some (_, r3) =>
        match parseInsertRow (exprFuel r3) r3 with
        | some (row, r4) =>
          match parseInsertRowTail (exprFuel r4) r4 with
          | some (rows, r5) =>
            -- optional RETURNING clause: the whole group backtracks when the
            -- captured alternation fails.
            let retAndRest : Option String × Tokens :=
              match matchLit "RETURNING" r5 with
              | some (_, r6) =>
                (match matchLit "NONE" r6 with
                 | some (v, r7) => (some v, r7)
                 | none =>
                   match matchLit "ALL_OLD" r6 with
                   | some (v, r7) => (some v, r7)
                   | none => (none, r5))
              | none => (none, r5)
            some (⟨into, row :: rows, retAndRest.1⟩, retAndRest.2)
          | none => none
        | none => none
      | none => none
    | none => none
  | none => none

/-- Go `ProjectionColumn`: `@@ | @@` (function first, then document
path). -/
def parseProjectionColumn (ts : Tokens) : Option (ProjectionColumn × Tokens) :=
  match parseFunctionExpression ts with
  | some (fe, r) => some (⟨some fe, none⟩, r)
  | none =>
    match parseDocumentPath ts with
    | some (p, r) => some (⟨none, some p⟩, r)
    | none => none

/-- Go `ProjectionExpression`:
`( @"*" | "document" "(" @"*" ")" ) | @@ ( "," @@ )*`. -/
def parseProjectionExpression (ts : Tokens) : Option (ProjectionExpression × Tokens) :=
  let allBranch : Option (ProjectionExpression × Tokens) :=
    match matchLit "*" ts with
    | some (_, r) => some (⟨true, []⟩, r)
    | none =>
      match matchLit "document" ts with
      | some (_, r1) =>
        match matchLit "(" r1 with
        | some (_, r2) =>
          match matchLit "*" r2 with
          | some (_, r3) =>
            match matchLit ")" r3 with
            | some (_, r4) => some (⟨true, []⟩, r4)
            | none => none
          | none => none
        | none => none
      | none => none
  match allBranch with
  | some x => some x
  | none =>
    match sepBy1 parseProjectionColumn "," ts with
    | some (cols, r) => some (⟨false, cols⟩, r)
    | none => none

/-- Go `Select`:
`@@ "FROM" name ( "USE" "INDEX" "(" @Ident ")" )? ( "WHERE" @@ )?
 ( @"ASC" | @"DESC" )? ( "LIMIT" @Number )?`. -/
def parseSelect (ts : Tokens) : Option (Select × Tokens) :=
  match parseProjectionExpression ts with
  | some (proj, r1) =>
    match matchLit "FROM" r1 with
    | some (_, r2) =>
      match parseDottedName r2 with
      | some (from_, r3) =>
        let idxAndRest : Option String × Tokens :=
          match matchLit "USE" r3 with
          | some (_, u1) =>
            (match matchLit "INDEX" u1 with
             | some (_, u2) =>
               match matchLit "(" u2 with
               | some (_, u3) =>
                 match matchKindTok .ident u3 with
                 | some (n, u4) =>
                   (match matchLit ")" u4 with
                    | some (_, u5) => (some n, u5)
                    | none => (none, r3))
                 | none => (none, r3)
               | none => (none, r3)
             | none => (none, r3))
          | none => (none, r3)
        let r4 := idxAndRest.2
        match
          (match matchLit "WHERE" r4 with
           | some (_, w1) =>
             (match parseAndExpressionT w1 with
              | some (w, w2) => some (some w, w2)
              | none => none)
           | none => some (none, r4) : Option (Option AndExpression × Tokens))
        with
        | none => none
        | some (whereC, r5) =>
          let descAndRest : Option Bool × Tokens :=
            match matchLit "ASC" r5 with
            | some (v, d1) => (some (asciiUpper v == "DESC"), d1)
            | none =>
              match matchLit "DESC" r5 with
              | some (v, d1) => (some (asciiUpper v == "DESC"), d1)
              | none => (none, r5)
          let r6 := descAndRest.2
          match
            (match matchLit "LIMIT" r6 with
             | some (_, l1) =>
               (match matchKindTok .number l1 with
                | some (n, l2) =>
                  (match parseGoInt n with
                   | some i => some (some i, l2)
                   | none => none)
                | none => some (none, r6))
             | none => some (none, r6) : Option (Option Int × Tokens))
          with
          | none => none
          | some (lim, r7) =>
            some (⟨proj, from_, idxAndRest.1, whereC, descAndRest.1, lim⟩, r7)
      | none => none
    | none => none
  | none => none

/-- Go `Projection` (CREATE TABLE):
`@("KEYS" "ONLY") | @"ALL" | "INCLUDE" (@(Ident | QuotedIdent) ("," @(Ident | QuotedIdent))*)`. -/
def parseTableProjection (ts : Tokens) : Option (TableProjection × Tokens) :=
  let keysOnly : Option (TableProjection × Tokens) :=
    match matchLit "KEYS" ts with
    | some (_, r1) =>
      match matchLit "ONLY" r1 with
      | some (_, r2) => some (⟨true, false, []⟩, r2)
      | none => none
    | none => none
  match keysOnly with
  | some x => some x
  | none =>
    match matchLit "ALL" ts with
    | some (_, r) => some (⟨false, true, []⟩, r)
    | none =>
      match matchLit "INCLUDE" ts with
      | some (_, r1) =>
        match sepBy1 (fun u =>
          match matchKindTok .ident u with
          | some x => some x
          | none => matchKindTok .quotedIdent u) "," r1 with
        | some (names, r2) => some (⟨false, false, names⟩, r2)
        | none => none
      | none => none

/-- A single table-entry name `@(Ident | QuotedIdent)`. -/
def matchName (ts : Tokens) : Option (String × Tokens) :=
  match matchKindTok .ident ts with
  | some x => some x
  | none => matchKindTok .quotedIdent ts

/-- Go `ProvisionedThroughput`:
`"PROVISIONED" "THROUGHPUT" "READ" @Number "WRITE" @Number`. -/
def parseProvisionedThroughput (ts : Tokens) : Option (ProvisionedThroughput × Tokens) :=
  match matchLit "PROVISIONED" ts with
  | some (_, r1) =>
    match matchLit "THROUGHPUT" r1 with
    | some (_, r2) =>
      match matchLit "READ" r2 with
      | some (_, r3) =>
        match matchKindTok .number r3 with
        | some (rd, r4) =>
          match parseGoInt rd with
          | some rdi =>
            match matchLit "WRITE" r4 with
            | some (_, r5) =>
              match matchKindTok .number r5 with
              | some (wr, r6) =>
                match parseGoInt wr with
                | some wri => some (⟨rdi, wri⟩, r6)
                | none => none
              | none => none
            | none => none
          | none => none
        | none => none
      | none => none
    | none => none
  | none => none

/-- Go `GlobalSecondaryIndex`:
`"GLOBAL" "SECONDARY" "INDEX" name "HASH" "(" name ")" "RANGE" "(" name ")"
 "PROJECTION" @@ @@`. -/
def parseGlobalSecondaryIndex (ts : Tokens) : Option (GlobalSecondaryIndex × Tokens) :=
  match matchLit "GLOBAL" ts with
  | some (_, r1) =>
    match matchLit "SECONDARY" r1 with
    | some (_, r2) =>
      match matchLit "INDEX" r2 with
      | some (_, r3) =>
        match matchName r3 with
        | some (nm, r4) =>
          match matchLit "HASH" r4 with
          | some (_, r5) =>
            match matchLit "(" r5 with
            | some (_, r6) =>
              match matchName r6 with
              | some (pk, r7) =>
                match matchLit ")" r7 with
                | some (_, r8) =>
                  match matchLit "RANGE" r8 with
                  | some (_, r9) =>
                    match matchLit "(" r9 with
                    | some (_, r10) =>
                      match matchName r10 with
                      | some (sk, r11) =>
                        match matchLit ")" r11 with
                        | some (_, r12) =>
                          match matchLit "PROJECTION" r12 with
                          | some (_, r13) =>
                            match parseTableProjection r13 with
                            | some (pj, r14) =>
                              match parseProvisionedThroughput r14 with
                              | some (pt, r15) => some (⟨nm, pk, sk, pj, pt⟩, r15)
                              | none => none
                            | none => none
                          | none => none
                        | none => none
                      | none => none
                    | none => none
                  | none => none
                | none => none
              | none => none
            | none => none
          | none => none
        | none => none
      | none => none
    | none => none
  | none => none

/-- Go `LocalSecondaryIndex`:
`"LOCAL" "SECONDARY" "INDEX" name "RANGE" "(" name ")" "PROJECTION" @@`. -/
def parseLocalSecondaryIndex (ts : Tokens) : Option (LocalSecondaryIndex × Tokens) :=
  match matchLit "LOCAL" ts with
  | some (_, r1) =>
    match matchLit "SECONDARY" r1 with
    | some (_, r2) =>
      match matchLit "INDEX" r2 with
      | some (_, r3) =>
        match matchName r3 with
        | some (nm, r4) =>
          match matchLit "RANGE" r4 with
          | some (_, r5) =>
            match matchLit "(" r5 with
            | some (_, r6) =>
              match matchName r6 with
              | some (sk, r7) =>
                match matchLit ")" r7 with
                | some (_, r8) =>
                  match matchLit "PROJECTION" r8 with
                  | some (_, r9) =>
                    match parseTableProjection r9 with
                    | some (pj, r10) => some (⟨nm, sk, pj⟩, r10)
                    | none => none
                  | none => none
                | none => none
              | none => none
            | none => none
          | none => none
        | none => none
      | none => none
    | none => none
  | none => none

/-- Go `TableAttr`:
`name @("STRING" | "NUMBER" | "BINARY") (@("HASH" | "RANGE") "KEY")?`. -/
def parseTableAttr (ts : Tokens) : Option (TableAttr × Tokens) :=
  match matchName ts with
  | some (nm, r1) =>
    match
      (match matchLit "STRING" r1 with
       | some x => some x
       | none =>
         match matchLit "NUMBER" r1 with
         | some x => some x
         | none => matchLit "BINARY" r1)
    with
    | some (ty, r2) =>
      let keyAndRest : String × Tokens :=
        match
          (match matchLit "HASH" r2 with
           | some x => some x
           | none => matchLit "RANGE" r2)
        with
        | some (k, k1) =>
          (match matchLit "KEY" k1 with
           | some (_, k2) => (k, k2)
           | none => ("", r2))
        | none => ("", r2)
      some (⟨nm, ty, keyAndRest.1⟩, keyAndRest.2)
    | none => none
  | none => none

/-- Go `CreateTableEntry`: `@@ | @@ | @@ | @@` (GSI, LSI, throughput, then
attribute — "Must be last."). -/
def parseCreateTableEntry (ts : Tokens) : Option (CreateTableEntry × Tokens) :=
  match parseGlobalSecondaryIndex ts with
  | some (g, r) => some (⟨some g, none, none, none⟩, r)
  | none =>
    match parseLocalSecondaryIndex ts with
    | some (l, r) => some (⟨none, some l, none, none⟩, r)
    | none =>
      match parseProvisionedThroughput ts with
      | some (p, r) => some (⟨none, none, some p, none⟩, r)
      | none =>
        match parseTableAttr ts with
        | some (a, r) => some (⟨none, none, none, some a⟩, r)
        | none => none

/-- Go `CreateTable`: `@(Ident | QuotedIdent) "(" @@ ("," @@)* ")"`. -/
def parseCreateTable (ts : Tokens) : Option (CreateTable × Tokens) :=
  match matchName ts with
  | some (nm, r1) =>
    match matchLit "(" r1 with
    | some (_, r2) =>
      match sepBy1 parseCreateTableEntry "," r2 with
      | some (es, r3) =>
        match matchLit ")" r3 with
        | some (_, r4) => some (⟨nm, es⟩, r4)
        | none => none
      | none => none
    | none => none
  | none => none

/-- Go `AST`:
`( "SELECT" @@ | "INSERT" @@ | "REPLACE" @@ | "CREATE" "TABLE" @@ ) ";"?`.
(The lexer elides `;`, so the optional terminator never sees a token.) -/
def parseAST (ts : Tokens) : Option (AST × Tokens) :=
  let stmt : Option (AST × Tokens) :=
    match
      (match matchLit "SELECT" ts with
       | some (_, r) =>
         (parseSelect r).map (fun x => (⟨some x.1, none, none, none⟩, x.2))
       | none => none : Option (AST × Tokens))
    with
    | some x => some x
    | none =>
      match
        (match matchLit "INSERT" ts with
         | some (_, r) =>
           (parseInsert r).map (fun x => (⟨none, some x.1, none, none⟩, x.2))
         | none => none : Option (AST × Tokens))
      with
      | some x => some x
      | none =>
        match
          (match matchLit "REPLACE" ts with
           | some (_, r) =>
             (parseInsert r).map (fun x => (⟨none, none, some x.1, none⟩, x.2))
           | none => none : Option (AST × Tokens))
        with
        | some x => some x
        | none =>
          match matchLit "CREATE" ts with
          | some (_, r1) =>
            match matchLit "TABLE" r1 with
            | some (_, r2) =>
              (parseCreateTable r2).map (fun x => (⟨none, none, none, some x.1⟩, x.2))
            | none => none
          | none => none
  match stmt with
  | some (a, r) =>
    match matchLit ";" r with
    | some (_, r2) => some (a, r2)
    | none => some (a, r)
  | none => none

/-- Go `func Parse(s string) (*AST, error)`: lex, parse the root struct, and
require the whole token stream to be consumed (`participle` reports an
"unexpected token" error otherwise).  `none` is any of `LexError` /
`ParseError`. -/
def Parse (s : String) : Option AST :=
  match lexChars s.data with
  | none => none
  | some ts =>
    match parseAST ts with
    | some (a, []) => some a
    | _ => none

/-- `Parse` on an already-lexed token stream (the parser stage of `Parse`). -/
def ParseTokens (ts : Tokens) : Option AST :=
  match parseAST ts with
  | some (a, []) => some a
  | _ => none

/-! ## Printers

Go `PathFragment.String` and `DocumentPath.String` (the printers named by the
round-trip property). -/

/-- Go `PathFragment.String`: the symbol when there are no indexes, otherwise
the symbol followed by `[i]` for each index (`strconv.Itoa`). -/
def pathFragmentString (p : PathFragment) : String :=
  if p.Indexes.isEmpty then p.Symbol
  else p.Indexes.foldl (fun acc i => acc ++ "[" ++ toString i ++ "]") p.Symbol

/-- Go `DocumentPath.String`: the first fragment, then `"." + fragment` for
the remaining ones.  (Go indexes `p.Fragment[0]` and would panic on an empty
path, which the parser never produces; the embedding returns `""` there.) -/
def documentPathString (p : DocumentPath) : String :=
  match p.Fragment with
  | [] => ""
  | f :: fs => fs.foldl (fun acc fr => acc ++ "." ++ pathFragmentString fr) (pathFragmentString f)

/-- Re-parse a printed document path: lex, parse a `DocumentPath`, and
require the whole input to be consumed. -/
def parseDocumentPathString (s : String) : Option DocumentPath :=
  match lexChars s.data with
  | none => none
  | some ts =>
    match parseDocumentPath ts with
    | some (p, []) => some p
    | _ => none

/-! ## Extraction helpers (used to state the claims) -/

/-- The numeric scalar sitting on the right-hand side of the first
comparison of a `SELECT`'s `WHERE` clause. -/
def whereNumberOf (a : Option AST) : Option DecValue :=
  match a with
  | some ast =>
    match ast.Select with
    | some sel =>
      match sel.Where with
      | some (.mk (c :: _)) =>
        match c with
        | .mk _ _ (some co) _ =>
          match co.ConditionRHS.Compare with
          | some cmp =>
            match cmp.Operand.Value with
            | some v => v.Scalar.Number
            | none => none
          | none => none
        | _ => none
      | _ => none
    | none => none
  | none => none

/-- The document path of the first projection column of a `SELECT`. -/
def firstProjectionPathOf (a : Option AST) : Option DocumentPath :=
  match a with
  | some ast =>
    match ast.Select with
    | some sel =>
      match sel.Projection.Columns with
      | c :: _ => c.DocumentPath
      | [] => none
    | none => none
  | none => none

/-- The `Returning` field of a parsed `INSERT`. -/
def returningOf (a : Option AST) : Option (Option String) :=
  match a with
  | some ast =>
    match ast.Insert with
    | some i => some i.Returning
    | none => none
  | none => none

/-! ## Validity predicates (for the universally quantified statements) -/

/-- A plain identifier: non-empty, `[a-zA-Z_]` first, `[a-zA-Z0-9_]*`
after. -/
def plainIdent (s : String) : Bool :=
  match s.data with
  | [] => false
  | c :: cs => isIdentStart c && cs.all isWordChar

/-- A path fragment whose printed form survives the lexer unchanged: a plain
identifier symbol that is not a reserved word, with no indexes. -/
def fragIsPlain (fr : PathFragment) : Bool :=
  plainIdent fr.Symbol && !(lexerKeywords.contains (asciiUpper fr.Symbol)) && fr.Indexes.isEmpty

/-- The character after a word run must not extend it (a `\b` boundary). -/
def boundaryAfter (l : List Char) : Bool :=
  match l with
  | [] => true
  | c :: _ => !(isWordChar c)

/-! ## Supporting lemmas -/


theorem identStart_not_space {c : Char} (h : isIdentStart c = true) : isSpaceChar c = false := by
  simp only [isIdentStart, isSpaceChar, Bool.or_eq_true, Bool.and_eq_true, decide_eq_true_eq,
    beq_iff_eq, Bool.or_eq_false_iff, Bool.and_eq_false_iff, beq_eq_false_iff_ne, ne_eq,
    decide_eq_false_iff_not, not_le] at *
  omega

theorem identStart_not_digit {c : Char} (h : isIdentStart c = true) : isDigitChar c = false := by
  simp only [isIdentStart, isDigitChar, Bool.or_eq_true, Bool.and_eq_true, decide_eq_true_eq,
    beq_iff_eq, Bool.or_eq_false_iff, Bool.and_eq_false_iff, beq_eq_false_iff_ne, ne_eq,
    decide_eq_false_iff_not, not_le] at *
  omega

theorem identStart_word {c : Char} (h : isIdentStart c = true) : isWordChar c = true := by
  simp only [isIdentStart, isWordChar, isDigitChar, Bool.or_eq_true, Bool.and_eq_true,
    decide_eq_true_eq, beq_iff_eq] at *
  omega

theorem takeWhile_append_of_all {α : Type} {p : α → Bool} {l r : List α}
    (h : ∀ a ∈ l, p a = true) : (l ++ r).takeWhile p = l ++ r.takeWhile p := by
  induction l with
  | nil => rfl
  | cons a l ih =>
    have ha : p a = true := h a (List.mem_cons_self a l)
    have hl : ∀ x ∈ l, p x = true := fun x hx => h x (List.mem_cons_of_mem a hx)
    simp [List.takeWhile_cons, ha, ih hl]

theorem dropWhile_append_of_all {α : Type} {p : α → Bool} {l r : List α}
    (h : ∀ a ∈ l, p a = true) : (l ++ r).dropWhile p = r.dropWhile p := by
  induction l with
  | nil => rfl
  | cons a l ih =>
    have ha : p a = true := h a (List.mem_cons_self a l)
    have hl : ∀ x ∈ l, p x = true := fun x hx => h x (List.mem_cons_of_mem a hx)
    simp [List.dropWhile_cons, ha, ih hl]

theorem takeWhile_cons_false {α : Type} {p : α → Bool} {c : α} {r : List α}
    (h : p c = false) : (c :: r).takeWhile p = [] := by
  simp [List.takeWhile_cons, h]

theorem dropWhile_cons_false {α : Type} {p : α → Bool} {c : α} {r : List α}
    (h : p c = false) : (c :: r).dropWhile p = c :: r := by
  simp [List.dropWhile_cons, h]

theorem scanSign_eq (l : List Char) : (scanSign l).1 ++ (scanSign l).2 = l := by
  unfold scanSign
  match l with
  | [] => rfl
  | c :: rest => by_cases h : (c == '-' || c == '+') = true <;> simp [h]

theorem scanExpPart_eq (r : List Char) : (scanExpPart r).1 ++ (scanExpPart r).2 = r := by
  match r with
  | [] => rfl
  | e :: r5 =>
    have hs5 := scanSign_eq r5
    have htd : List.takeWhile isDigitChar (scanSign r5).2 ++
        List.dropWhile isDigitChar (scanSign r5).2 = (scanSign r5).2 :=
      List.takeWhile_append_dropWhile ..
    simp only [scanExpPart]
    by_cases h : (e == 'e' || e == 'E') = true
    · simp only [h, if_true]
      by_cases h2 : ((scanSign r5).2.takeWhile isDigitChar).isEmpty = true
      · simp [h2]
      · simp only [if_neg h2, List.cons_append, List.cons.injEq, true_and,
          List.append_assoc, htd, hs5]
    · simp [h]

theorem scanNumber_eq {l x r : List Char} (h : scanNumber l = some (x, r)) :
    x ≠ [] ∧ x ++ r = l := by
  have hsplit : List.takeWhile isDigitChar (scanSign l).2 ++
      List.dropWhile isDigitChar (scanSign l).2 = (scanSign l).2 :=
    List.takeWhile_append_dropWhile ..
  unfold scanNumber at h
  simp only [] at h
  split at h
  · exact absurd h (by simp)
  · rename_i core r4 heq
    simp only [Option.some.injEq, Prod.mk.injEq] at h
    obtain ⟨hx, hr⟩ := h
    have hcore : core ≠ [] ∧ core ++ r4 = (scanSign l).2 := by
      split at heq
      · rename_i r3 hpat
        by_cases hd : isDigitChar (r3.headD ' ') = true
        · rw [if_pos hd] at heq
          simp only [Option.some.injEq, Prod.mk.injEq] at heq
          obtain ⟨hc, hr4⟩ := heq
          subst hc hr4
          refine ⟨by simp, ?_⟩
          rw [List.append_assoc, List.cons_append, List.takeWhile_append_dropWhile, ← hpat]
          exact hsplit
        · rw [if_neg hd] at heq
          by_cases hi : (List.takeWhile isDigitChar (scanSign l).2).isEmpty = true
          · rw [if_pos hi] at heq
            exact absurd heq (by simp)
          · rw [if_neg hi] at heq
            simp only [Option.some.injEq, Prod.mk.injEq] at heq
            obtain ⟨hc, hr4⟩ := heq
            subst hc hr4
            exact ⟨by simpa using hi, hsplit⟩
      · by_cases hi : (List.takeWhile isDigitChar (scanSign l).2).isEmpty = true
        · rw [if_pos hi] at heq
          exact absurd heq (by simp)
        · rw [if_neg hi] at heq
          simp only [Option.some.injEq, Prod.mk.injEq] at heq
          obtain ⟨hc, hr4⟩ := heq
          subst hc hr4
          exact ⟨by simpa using hi, hsplit⟩
    obtain ⟨hne, hc⟩ := hcore
    constructor
    · intro hxe
      rw [hxe] at hx
      have := congrArg List.length hx
      simp only [List.length_nil, List.length_append] at this
      have hcl : 0 < core.length := List.length_pos.mpr hne
      omega
    · rw [← hx, ← hr]
      calc (scanSign l).1 ++ core ++ (scanExpPart r4).1 ++ (scanExpPart r4).2
          = (scanSign l).1 ++ core ++ ((scanExpPart r4).1 ++ (scanExpPart r4).2) := by
            simp [List.append_assoc]
        _ = (scanSign l).1 ++ core ++ r4 := by rw [scanExpPart_eq]
        _ = (scanSign l).1 ++ (core ++ r4) := by simp [List.append_assoc]
        _ = (scanSign l).1 ++ (scanSign l).2 := by rw [hc]
        _ = l := scanSign_eq l

theorem scanOperator_length {l : List Char} {o : String} {r : List Char}
    (h : scanOperator l = some (o, r)) : r.length < l.length := by
  unfold scanOperator at h
  split at h <;>
    first
      | (simp only [Option.some.injEq, Prod.mk.injEq] at h
         obtain ⟨-, rfl⟩ := h
         simp only [List.length_cons]
         omega)
      | (split at h
         · simp only [Option.some.injEq, Prod.mk.injEq] at h
           obtain ⟨-, rfl⟩ := h
           simp only [List.length_cons]
           omega
         · exact absurd h (by simp))
      | exact absurd h (by simp)

theorem dropWhile_length_le {α : Type} (p : α → Bool) (l : List α) :
    (l.dropWhile p).length ≤ l.length := by
  induction l with
  | nil => simp
  | cons a l ih =>
    rw [List.dropWhile_cons]
    by_cases h : p a = true
    · rw [if_pos h]
      simp only [List.length_cons]
      omega
    · rw [if_neg h]

/-- `lexGo` does not depend on the fuel, as long as the fuel exceeds the
input length (each step consumes at least one character). -/
theorem lexGo_le : ∀ {f : Nat} {l : List Char}, l.length < f → ∀ {g : Nat}, f ≤ g →
    lexGo g l = lexGo f l := by
  intro f
  induction f with
  | zero => intro l h; exact absurd h (Nat.not_lt_zero _)
  | succ f ih =>
    intro l hl g hg
    obtain ⟨g, rfl⟩ : ∃ g', g = g' + 1 := ⟨g - 1, by omega⟩
    match l with
    | [] => rfl
    | c :: cs =>
      have hcs : cs.length < f := by
        simp only [List.length_cons] at hl
        omega
      have hfg : f ≤ g := by omega
      simp only [lexGo]
      by_cases h1 : isSpaceChar c = true
      · rw [if_pos h1, if_pos h1]
        exact ih hcs hfg
      · rw [if_neg h1, if_neg h1]
        by_cases h2 : isIdentStart c = true
        · rw [if_pos h2, if_pos h2]
          have hlen : (cs.dropWhile isWordChar).length < f := by
            have := dropWhile_length_le isWordChar cs
            omega
          simp only [ih hlen hfg]
        · rw [if_neg h2, if_neg h2]
          by_cases h3 : (c == '`') = true
          · rw [if_pos h3, if_pos h3]
            match hdw : cs.dropWhile (· ≠ '`') with
            | [] => rfl
            | q :: rest =>
              have hlen : rest.length < f := by
                have h4 := dropWhile_length_le (· ≠ '`') cs
                rw [hdw] at h4
                simp only [List.length_cons] at h4
                omega
              simp only [ih hlen hfg]
          · rw [if_neg h3, if_neg h3]
            match hsn : scanNumber (c :: cs) with
            | some (lexeme, rest) =>
              obtain ⟨hne, happ⟩ := scanNumber_eq hsn
              have hlen : rest.length < f := by
                have := congrArg List.length happ
                simp only [List.length_append, List.length_cons] at this
                have : 0 < lexeme.length := List.length_pos.mpr hne
                omega
              simp only [hsn, ih hlen hfg]
            | none =>
              by_cases h4 : (c == '\'' || c == '"') = true
              · rw [if_pos h4, if_pos h4]
                match hdw : cs.dropWhile (· ≠ c) with
                | [] => rfl
                | q :: rest =>
                  have hlen : rest.length < f := by
                    have h5 := dropWhile_length_le (· ≠ c) cs
                    rw [hdw] at h5
                    simp only [List.length_cons] at h5
                    omega
                  simp only [ih hlen hfg]
              · rw [if_neg h4, if_neg h4]
                by_cases h5 : (c == ';') = true
                · rw [if_pos h5, if_pos h5]
                  exact ih hcs hfg
                · rw [if_neg h5, if_neg h5]
                  match hso : scanOperator (c :: cs) with
                  | some (o, rest) =>
                    have hlen : rest.length < f := by
                      have := scanOperator_length hso
                      simp only [List.length_cons] at this
                      omega
                    simp only [hso, ih hlen hfg]
                  | none => rfl




/-- Head of the remaining input cannot start a digit run. -/
def headNotDigit (l : List Char) : Bool :=
  match l with
  | [] => true
  | c :: _ => !(isDigitChar c)


theorem lexChars_nil : lexChars [] = some [] := rfl

theorem takeWhile_boundary {rest : List Char} (hb : boundaryAfter rest = true) :
    rest.takeWhile isWordChar = [] := by
  match rest with
  | [] => rfl
  | c :: r =>
    simp only [boundaryAfter, Bool.not_eq_true'] at hb
    exact takeWhile_cons_false hb

theorem dropWhile_boundary {rest : List Char} (hb : boundaryAfter rest = true) :
    rest.dropWhile isWordChar = rest := by
  match rest with
  | [] => rfl
  | c :: r =>
    simp only [boundaryAfter, Bool.not_eq_true'] at hb
    exact dropWhile_cons_false hb

/-- The lexer, on a word run followed by a boundary: one `Keyword`/`Ident`
token (by the keyword-list membership of the upper-cased run), then the
lexing of the rest. -/
theorem lexChars_word_step {c : Char} {sym rest : List Char}
    (hstart : isIdentStart c = true) (hword : ∀ a ∈ sym, isWordChar a = true)
    (hb : boundaryAfter rest = true) :
    lexChars ((c :: sym) ++ rest) =
      (lexChars rest).map
        (⟨if lexerKeywords.contains (asciiUpper ⟨c :: sym⟩) then .keyword else .ident,
          ⟨c :: sym⟩⟩ :: ·) := by
  unfold lexChars
  rw [List.cons_append]
  rw [show (c :: (sym ++ rest)).length + 1 = (sym ++ rest).length + 1 + 1 by simp]
  simp only [lexGo]
  rw [if_neg (by simp [identStart_not_space hstart])]
  rw [if_pos hstart]
  rw [takeWhile_append_of_all hword, takeWhile_boundary hb]
  rw [dropWhile_append_of_all hword, dropWhile_boundary hb]
  rw [lexGo_le (f := rest.length + 1) (by omega) (by simp only [List.length_append]; omega)]
  simp

/-- The lexer, on a dot not followed by a digit: one `.` operator token. -/
theorem lexChars_dot_step {rest : List Char} (hd : headNotDigit rest = true) :
    lexChars ('.' :: rest) = (lexChars rest).map (⟨.op, "."⟩ :: ·) := by
  have hscan : scanNumber ('.' :: rest) = none := by
    unfold scanNumber scanSign
    simp only []
    match rest with
    | [] => rfl
    | r :: rs =>
      simp only [headNotDigit, Bool.not_eq_true'] at hd
      simp [takeWhile_cons_false (by decide : isDigitChar '.' = false),
        dropWhile_cons_false (by decide : isDigitChar '.' = false), hd]
  have hop : scanOperator ('.' :: rest) = some (".", rest) := by
    match rest with
    | [] => rfl
    | r :: rs => rfl
  unfold lexChars
  rw [show ('.' :: rest).length + 1 = rest.length + 1 + 1 by simp]
  simp only [lexGo]
  rw [if_neg (by decide), if_neg (by decide), if_neg (by decide)]
  rw [hscan]
  simp only []
  rw [if_neg (by decide), if_neg (by decide)]
  rw [hop]

/-- The `.` separator token and plain identifier tokens, as the lexer
produces them for a printed path. -/
def dotTok : Token := ⟨.op, "."⟩

/-- See `dotTok`. -/
def identTok (s : String) : Token := ⟨.ident, s⟩

/-- Head of the remaining tokens cannot start an index (`"["`). -/
def headNotLBracket (ts : Tokens) : Bool :=
  match ts with
  | [] => true
  | t :: _ => !(litMatches "[" t)

theorem parseIndexes_stop {ts : Tokens} (h : headNotLBracket ts = true) :
    parseIndexes ts = some ([], ts) := by
  match ts with
  | [] => rfl
  | [t] => rfl
  | [t, t2] => rfl
  | t :: t2 :: t3 :: rest =>
    simp only [headNotLBracket, Bool.not_eq_true'] at h
    simp [parseIndexes, h]

theorem parsePathFragment_plain {s : String} {rest : Tokens}
    (h : headNotLBracket rest = true) :
    parsePathFragment (identTok s :: rest) = some (⟨s, []⟩, rest) := by
  simp [parsePathFragment, identTok, parseIndexes_stop h]



theorem sepTail_nil {α : Type} {p : Tokens → Option (α × Tokens)} {sep : String} {f : Nat} :
    sepTail p sep (f + 1) [] = some ([], []) := by
  simp [sepTail]


theorem sepTail_cons {α : Type} {p : Tokens → Option (α × Tokens)} {sep : String} {f : Nat}
    {t : Token} {ts rest : Tokens} {a : α}
    (hsep : litMatches sep t = true) (hp : p ts = some (a, rest)) :
    sepTail p sep (f + 1) (t :: ts) =
      (sepTail p sep f rest).map (fun x => (a :: x.1, x.2)) := by
  simp [sepTail, hsep, hp]

/-- The printed form of the tail fragments (`"." + fragment` each), as a
recursive function (`documentPathString`'s fold computes the same string). -/
def printTail : List PathFragment → String
  | [] => ""
  | fr :: fs => "." ++ pathFragmentString fr ++ printTail fs

theorem foldl_print (fs : List PathFragment) (acc : String) :
    fs.foldl (fun acc fr => acc ++ "." ++ pathFragmentString fr) acc = acc ++ printTail fs := by
  induction fs generalizing acc with
  | nil => simp [printTail]
  | cons fr fs ih =>
    rw [List.foldl_cons, ih]
    simp [printTail, String.append_assoc]

theorem documentPathString_cons (f : PathFragment) (fs : List PathFragment) :
    documentPathString ⟨f :: fs⟩ = pathFragmentString f ++ printTail fs := by
  unfold documentPathString
  exact foldl_print fs (pathFragmentString f)

theorem pathFragmentString_plain {fr : PathFragment} (h : fr.Indexes = []) :
    pathFragmentString fr = fr.Symbol := by
  simp [pathFragmentString, h]

/-- The token stream of a printed fragment tail. -/
def tailToks : List PathFragment → Tokens
  | [] => []
  | fr :: fs => dotTok :: identTok fr.Symbol :: tailToks fs

theorem fragIsPlain_parts {fr : PathFragment} (h : fragIsPlain fr = true) :
    plainIdent fr.Symbol = true ∧ lexerKeywords.contains (asciiUpper fr.Symbol) = false ∧
      fr.Indexes = [] := by
  simp only [fragIsPlain, Bool.and_eq_true, Bool.not_eq_true'] at h
  exact ⟨h.1.1, h.1.2, by simpa using h.2⟩

theorem plainIdent_parts {s : String} (h : plainIdent s = true) :
    ∃ c cs, s.data = c :: cs ∧ isIdentStart c = true ∧ ∀ a ∈ cs, isWordChar a = true := by
  unfold plainIdent at h
  match hd : s.data with
  | [] => rw [hd] at h; exact absurd h (by simp)
  | c :: cs =>
    rw [hd] at h
    simp only [Bool.and_eq_true, List.all_eq_true] at h
    exact ⟨c, cs, rfl, h.1, h.2⟩

theorem boundary_printTail (fs : List PathFragment) :
    boundaryAfter (printTail fs).data = true := by
  match fs with
  | [] => rfl
  | fr :: fs =>
    show boundaryAfter ("." ++ pathFragmentString fr ++ printTail fs).data = true
    rw [String.data_append, String.data_append]
    rfl

/-- Lexing a printed symbol followed by a boundary: a single `Ident` token
(for a plain, non-reserved symbol). -/
theorem lexChars_plainSym {s : String} {rest : List Char} {ts : List Token}
    (hpl : plainIdent s = true) (hkw : lexerKeywords.contains (asciiUpper s) = false)
    (hb : boundaryAfter rest = true) (h : lexChars rest = some ts) :
    lexChars (s.data ++ rest) = some (identTok s :: ts) := by
  obtain ⟨c, cs, hd, hstart, hword⟩ := plainIdent_parts hpl
  rw [hd]
  rw [lexChars_word_step hstart hword hb]
  have hs : (⟨c :: cs⟩ : String) = s := by rw [← hd]
  rw [hs, hkw]
  simp [h, identTok]

theorem lex_printTail {fs : List PathFragment} (h : ∀ fr ∈ fs, fragIsPlain fr = true) :
    lexChars (printTail fs).data = some (tailToks fs) := by
  induction fs with
  | nil => exact lexChars_nil
  | cons fr fs ih =>
    obtain ⟨hpl, hkw, hidx⟩ := fragIsPlain_parts (h fr (List.mem_cons_self fr fs))
    have hfs := fun x hx => h x (List.mem_cons_of_mem fr hx)
    show lexChars ("." ++ pathFragmentString fr ++ printTail fs).data = _
    rw [pathFragmentString_plain hidx, String.data_append, String.data_append]
    have hdot : (("." : String)).data = ['.'] := rfl
    rw [hdot, List.append_assoc]
    show lexChars ('.' :: (fr.Symbol.data ++ (printTail fs).data)) = _
    have hnd : headNotDigit (fr.Symbol.data ++ (printTail fs).data) = true := by
      obtain ⟨c, cs, hd, hstart, -⟩ := plainIdent_parts hpl
      rw [hd]
      simp [headNotDigit, identStart_not_digit hstart]
    rw [lexChars_dot_step hnd]
    rw [lexChars_plainSym hpl hkw (boundary_printTail fs) (ih hfs)]
    rfl

theorem tailToks_length (fs : List PathFragment) : (tailToks fs).length = 2 * fs.length := by
  induction fs with
  | nil => rfl
  | cons fr fs ih =>
    simp only [tailToks, List.length_cons, ih]
    omega

theorem parse_tailToks {fs : List PathFragment} (h : ∀ fr ∈ fs, fr.Indexes = []) :
    ∀ {f : Nat}, fs.length < f →
      sepTail parsePathFragment "." f (tailToks fs) = some (fs, []) := by
  induction fs with
  | nil =>
    intro f hf
    obtain ⟨f, rfl⟩ : ∃ f', f = f' + 1 := ⟨f - 1, by omega⟩
    exact sepTail_nil
  | cons fr fs ih =>
    intro f hf
    obtain ⟨f, rfl⟩ : ∃ f', f = f' + 1 := ⟨f - 1, by omega⟩
    have hidx := h fr (List.mem_cons_self fr fs)
    have hfs := fun x hx => h x (List.mem_cons_of_mem fr hx)
    show sepTail parsePathFragment "." (f + 1) (dotTok :: identTok fr.Symbol :: tailToks fs) = _
    have hb : headNotLBracket (tailToks fs) = true := by
      match fs with
      | [] => rfl
      | fr2 :: fs2 => rfl
    rw [sepTail_cons (by rfl) (parsePathFragment_plain hb)]
    rw [ih hfs (by simp only [List.length_cons] at hf; omega)]
    have : (⟨fr.Symbol, []⟩ : PathFragment) = fr := by
      obtain ⟨s, idx⟩ := fr
      simp at hidx
      rw [hidx]
    rw [this]
    rfl

/-- Print-then-reparse restores a document path whose fragments are plain
non-reserved identifiers without indexes. -/
theorem roundtrip_plain_path (p : DocumentPath) (hne : p.Fragment ≠ [])
    (hv : ∀ fr ∈ p.Fragment, fragIsPlain fr = true) :
    parseDocumentPathString (documentPathString p) = some p := by
  obtain ⟨frs⟩ := p
  match frs, hne with
  | f :: fs, _ =>
    obtain ⟨hpl, hkw, hidx⟩ := fragIsPlain_parts (hv f (List.mem_cons_self f fs))
    have hfs := fun x hx => hv x (List.mem_cons_of_mem f hx)
    unfold parseDocumentPathString
    rw [documentPathString_cons, pathFragmentString_plain hidx]
    rw [String.data_append]
    rw [lexChars_plainSym hpl hkw (boundary_printTail fs) (lex_printTail hfs)]
    have hb : headNotLBracket (tailToks fs) = true := by
      match fs with
      | [] => rfl
      | fr2 :: fs2 => rfl
    simp only []
    unfold parseDocumentPath sepBy1
    rw [parsePathFragment_plain hb]
    simp only []
    have hlen : fs.length < (tailToks fs).length + 1 := by
      rw [tailToks_length]
      omega
    rw [parse_tailToks (fun x hx => (fragIsPlain_parts (hfs x hx)).2.2) hlen]
    have : (⟨f.Symbol, []⟩ : PathFragment) = f := by
      obtain ⟨s, idx⟩ := f
      simp at hidx
      rw [hidx]
    rw [this]
    rfl





/-- C9 universal part: a named placeholder keeps its leading colon. -/
theorem parseValue_placeholder (name : String) (rest : Tokens) :
    parseValue (⟨.op, ":"⟩ :: ⟨.ident, name⟩ :: rest) =
      some ({ zeroValue with PlaceHolder := some (":" ++ name) }, rest) := rfl

/-- C1 amended universal part: the scalar capture stores only the parsed
numeric value. -/
theorem parseScalar_number {v : String} {rest : Tokens} {q : DecValue}
    (h : parseDecimalValue v = some q) :
    parseScalar (⟨.number, v⟩ :: rest) = some ({ zeroScalar with Number := some q }, rest) := by
  unfold parseScalar
  simp [matchKindTok, h]

/-- C5 universal part. -/
theorem parseAST_select_from {v₁ v₂ : String} (rest : Tokens)
    (h1 : asciiUpper v₁ = "SELECT") (h2 : asciiUpper v₂ = "FROM") :
    ParseTokens (⟨.keyword, v₁⟩ :: ⟨.keyword, v₂⟩ :: rest) = none := by
  have m1 : litMatches "SELECT" ⟨.keyword, v₁⟩ = true := by
    simp [litMatches, h1]
    decide
  have mi : litMatches "INSERT" ⟨.keyword, v₁⟩ = false := by
    simp [litMatches, h1]
    decide
  have mr : litMatches "REPLACE" ⟨.keyword, v₁⟩ = false := by
    simp [litMatches, h1]
    decide
  have mc : litMatches "CREATE" ⟨.keyword, v₁⟩ = false := by
    simp [litMatches, h1]
    decide
  have mstar : litMatches "*" ⟨.keyword, v₂⟩ = false := by
    simp [litMatches, h2]
    decide
  have mdoc : litMatches "document" ⟨.keyword, v₂⟩ = false := by
    simp [litMatches, h2]
    decide
  have hproj : parseProjectionExpression (⟨.keyword, v₂⟩ :: rest) = none := by
    have hcol : parseProjectionColumn (⟨.keyword, v₂⟩ :: rest) = none := by
      simp [parseProjectionColumn, parseFunctionExpression, matchKindTok,
        parseDocumentPath, sepBy1, parsePathFragment]
    simp [parseProjectionExpression, matchLit, mstar, mdoc, sepBy1, hcol]
  simp [ParseTokens, parseAST, matchLit, m1, mi, mr, mc, parseSelect, hproj]

/-- C2 universal part: any case variant of a lexer keyword lexes as a
single `Keyword` token. -/
theorem lexChars_keyword {w : String} (hpl : plainIdent w = true)
    (hkw : lexerKeywords.contains (asciiUpper w) = true) :
    lexChars w.data = some [⟨.keyword, w⟩] := by
  obtain ⟨c, cs, hd, hstart, hword⟩ := plainIdent_parts hpl
  rw [hd, show c :: cs = (c :: cs) ++ [] by simp]
  rw [lexChars_word_step hstart hword (by rfl)]
  rw [show (⟨c :: cs⟩ : String) = w from by rw [← hd]]
  rw [hkw]
  simp [lexChars_nil]

/-- No keyword of the lexer's list is a strict prefix of another. -/
theorem keywords_no_strict_pre : ∀ a ∈ lexerKeywords, ∀ b ∈ lexerKeywords,
    b.data.isPrefixOf a.data = true → b.length < a.length → False := by decide

/-- C3 universal part: a plain identifier with a keyword as a strict
case-insensitive prefix lexes as a single `Ident` token. -/
theorem lexChars_keyword_strict_pre {x W : String} {rest : List Char} {ts : List Token}
    (hpl : plainIdent x = true) (hW : W ∈ lexerKeywords)
    (hpre : W.data.isPrefixOf (asciiUpper x).data = true)
    (hlen : W.length < (asciiUpper x).length)
    (hb : boundaryAfter rest = true) (h : lexChars rest = some ts) :
    lexChars (x.data ++ rest) = some (⟨.ident, x⟩ :: ts) := by
  have hnc : lexerKeywords.contains (asciiUpper x) = false := by
    cases hc : lexerKeywords.contains (asciiUpper x) with
    | false => rfl
    | true =>
      have hmem : asciiUpper x ∈ lexerKeywords := List.elem_iff.mp hc
      exact (keywords_no_strict_pre _ hmem _ hW hpre hlen).elim
  obtain ⟨c, cs, hd, hstart, hword⟩ := plainIdent_parts hpl
  rw [hd, lexChars_word_step hstart hword hb]
  rw [show (⟨c :: cs⟩ : String) = x from by rw [← hd]]
  rw [hnc]
  simp [h]

/-- C7 universal part: a RETURNING clause followed by any token matching
neither `NONE` nor `ALL_OLD` makes the whole statement fail to parse
(participle backtracks over `RETURNING` and then rejects the leftover
tokens). -/
theorem parse_returning_other {tk : Token}
    (h1 : litMatches "NONE" tk = false) (h2 : litMatches "ALL_OLD" tk = false) :
    ParseTokens [⟨.keyword, "INSERT"⟩, ⟨.keyword, "INTO"⟩, ⟨.ident, "t"⟩,
      ⟨.keyword, "VALUES"⟩, ⟨.op, "("⟩, ⟨.number, "1"⟩, ⟨.op, ")"⟩,
      ⟨.keyword, "RETURNING"⟩, tk] = none := by
  have hrow : parseInsertRow
      (exprFuel [⟨.op, "("⟩, ⟨.number, "1"⟩, ⟨.op, ")"⟩, ⟨.keyword, "RETURNING"⟩, tk])
      [⟨.op, "("⟩, ⟨.number, "1"⟩, ⟨.op, ")"⟩, ⟨.keyword, "RETURNING"⟩, tk] =
      some (⟨{ zeroValue with Scalar := { zeroScalar with Number := some ⟨1, 0⟩ } }, none⟩,
        [⟨.keyword, "RETURNING"⟩, tk]) := rfl
  have htail : parseInsertRowTail (exprFuel [⟨.keyword, "RETURNING"⟩, tk])
      [⟨.keyword, "RETURNING"⟩, tk] = some ([], [⟨.keyword, "RETURNING"⟩, tk]) := rfl
  have e1 : litMatches "SELECT" ⟨.keyword, "INSERT"⟩ = false := by decide
  have e2 : litMatches "INSERT" ⟨.keyword, "INSERT"⟩ = true := by decide
  have e3 : litMatches "INTO" ⟨.keyword, "INTO"⟩ = true := by decide
  have e4 : litMatches "." ⟨.keyword, "VALUES"⟩ = false := by decide
  have e5 : litMatches "VALUES" ⟨.keyword, "VALUES"⟩ = true := by decide
  have e6 : litMatches "RETURNING" ⟨.keyword, "RETURNING"⟩ = true := by decide
  have e7 : litMatches ";" ⟨.keyword, "RETURNING"⟩ = false := by decide
  simp [ParseTokens, parseAST, parseInsert, matchLit, parseDottedName, parseDottedTail,
    matchKindTok, hrow, htail, e1, e2, e3, e4, e5, e6, e7, h1, h2]


/-! ## Claims -/


/-- C1, counterexample: `1.0` and `1` are distinct number lexemes, yet the
two statements parse to structurally equal ASTs, so the AST cannot have
preserved the original textual form of the number. -/
theorem C1_counterexample :
    lexChars "1.0".data = some [⟨.number, "1.0"⟩] ∧
    lexChars "1".data = some [⟨.number, "1"⟩] ∧
    Parse "SELECT * FROM t WHERE a = 1.0" = Parse "SELECT * FROM t WHERE a = 1" ∧
    (Parse "SELECT * FROM t WHERE a = 1.0").isSome = true :=
  ⟨rfl, rfl, rfl, rfl⟩

/-- C1, amended: a number token is captured into the AST as its parsed
numeric value (`strconv.ParseFloat` into `*float64`), not as text: the
`Scalar` node stores only the value, so distinct lexemes denoting the same
value (such as `1.0` and `1`) produce identical ASTs and the source lexeme
is not recoverable downstream. -/
theorem C1_amended_theorem :
    (∀ (v : String) (rest : Tokens) (q : DecValue), parseDecimalValue v = some q →
      parseScalar (⟨.number, v⟩ :: rest) =
        some ({ zeroScalar with Number := some q }, rest)) ∧
    Parse "SELECT * FROM t WHERE a = 1.0" = Parse "SELECT * FROM t WHERE a = 1" ∧
    whereNumberOf (Parse "SELECT * FROM t WHERE a = 1.0") = some ⟨1, 0⟩ :=
  ⟨fun _ _ _ h => parseScalar_number h, rfl, rfl⟩

/-- C1, witness for the amended theorem at the lexeme `1.0`. -/
theorem C1_witness :
    parseDecimalValue "1.0" = some ⟨1, 0⟩ ∧
    parseScalar [⟨.number, "1.0"⟩] = some ({ zeroScalar with Number := some ⟨1, 0⟩ }, []) :=
  ⟨rfl, C1_amended_theorem.1 "1.0" [] ⟨1, 0⟩ rfl⟩

/-- C2, counterexample: `REPLACE` is missing from the lexer's keyword
alternation, so `replace` (and even `REPLACE`) lexes as an `Ident` token,
and the literal match in the grammar is case-sensitive for it:
`replace into t values (1)` fails to parse while
`REPLACE INTO t VALUES (1)` succeeds. -/
theorem C2_counterexample :
    lexChars "replace".data = some [⟨.ident, "replace"⟩] ∧
    lexChars "REPLACE".data = some [⟨.ident, "REPLACE"⟩] ∧
    Parse "replace into t values (1)" = none ∧
    Parse "REPLACE INTO t VALUES (1)" =
      some ⟨none, none,
        some ⟨"t", [⟨{ zeroValue with
          Scalar := { zeroScalar with Number := some ⟨1, 0⟩ } }, none⟩], none⟩, none⟩ :=
  ⟨rfl, rfl, rfl, rfl⟩

/-- C2, amended: every word of the lexer's keyword list (which omits
`REPLACE`) is recognized case-insensitively as a `Keyword` token, and a
statement using a lower-case keyword parses identically to the upper-case
one; `REPLACE` itself is matched case-sensitively as an identifier. -/
theorem C2_amended_theorem :
    (∀ w : String, plainIdent w = true →
      lexerKeywords.contains (asciiUpper w) = true →
      lexChars w.data = some [⟨.keyword, w⟩]) ∧
    Parse "select a from t" = Parse "SELECT a FROM t" ∧
    (Parse "SELECT a FROM t").isSome = true :=
  ⟨fun _ h1 h2 => lexChars_keyword h1 h2, rfl, rfl⟩

/-- C2, witness for the amended theorem at the case variant `sElEcT`. -/
theorem C2_witness :
    lexChars "sElEcT".data = some [⟨.keyword, "sElEcT"⟩] :=
  C2_amended_theorem.1 "sElEcT" (by decide) (by decide)

/-- C3 (confirmed): keyword matching is whole-word anchored: an identifier
that merely has a reserved word as a strict (case-insensitive) prefix lexes
as a single `Ident` token for the whole word, never as a `Keyword` for the
prefix, whatever follows the identifier. -/
theorem C3_theorem :
    ∀ (x W : String) (rest : List Char) (ts : List Token),
      plainIdent x = true → W ∈ lexerKeywords →
      W.data.isPrefixOf (asciiUpper x).data = true →
      W.length < (asciiUpper x).length →
      boundaryAfter rest = true → lexChars rest = some ts →
      lexChars (x.data ++ rest) = some (⟨.ident, x⟩ :: ts) :=
  fun _ _ _ _ h1 h2 h3 h4 h5 h6 => lexChars_keyword_strict_pre h1 h2 h3 h4 h5 h6

/-- C3, witness at `INDEXED` (prefix `INDEX`). -/
theorem C3_witness :
    lexChars "INDEXED".data = some [⟨.ident, "INDEXED"⟩] := by
  have h := C3_theorem "INDEXED" "INDEX" [] [] (by decide) (by decide) (by decide)
    (by decide) (by decide) rfl
  simpa using h

/-- C5 (confirmed): a `SELECT` with an empty projection list is rejected:
after the `SELECT` keyword, a `FROM` keyword cannot start a projection
(neither the `*` forms nor a column), so parsing fails whatever follows,
and no AST is produced. -/
theorem C5_theorem :
    (∀ (v₁ v₂ : String) (rest : Tokens), asciiUpper v₁ = "SELECT" →
      asciiUpper v₂ = "FROM" →
      ParseTokens (⟨.keyword, v₁⟩ :: ⟨.keyword, v₂⟩ :: rest) = none) ∧
    Parse "SELECT FROM t" = none ∧
    Parse "select from Users" = none :=
  ⟨fun _ _ rest h1 h2 => parseAST_select_from rest h1 h2, rfl, rfl⟩

/-- C5, witness at the token stream `SELECT FROM`. -/
theorem C5_witness :
    ParseTokens [⟨.keyword, "SELECT"⟩, ⟨.keyword, "FROM"⟩] = none :=
  C5_theorem.1 "SELECT" "FROM" [] (by decide) (by decide)

/-- C6 (confirmed): parsing is deterministic — `Parse` is a pure function
of the statement text (the Go `Parse` reads a package-level parser that is
built once and never mutated, and allocates a fresh AST per call), so two
invocations on the same text return the same outcome: both fail, or both
succeed with structurally equal ASTs. -/
theorem C6_theorem : ∀ s : String, Parse s = Parse s := fun _ => rfl

/-- C7 (confirmed): the RETURNING clause of INSERT/REPLACE accepts exactly
`NONE` and `ALL_OLD` (recording the written value); any other token after
`RETURNING` makes the statement fail to parse, and an absent clause leaves
the `Returning` field empty. -/
theorem C7_theorem :
    Parse "INSERT INTO t VALUES (1) RETURNING NONE" =
      some ⟨none, some ⟨"t", [⟨{ zeroValue with
        Scalar := { zeroScalar with Number := some ⟨1, 0⟩ } }, none⟩],
        some "NONE"⟩, none, none⟩ ∧
    Parse "INSERT INTO t VALUES (1) RETURNING ALL_OLD" =
      some ⟨none, some ⟨"t", [⟨{ zeroValue with
        Scalar := { zeroScalar with Number := some ⟨1, 0⟩ } }, none⟩],
        some "ALL_OLD"⟩, none, none⟩ ∧
    (∀ tk : Token, litMatches "NONE" tk = false → litMatches "ALL_OLD" tk = false →
      ParseTokens [⟨.keyword, "INSERT"⟩, ⟨.keyword, "INTO"⟩, ⟨.ident, "t"⟩,
        ⟨.keyword, "VALUES"⟩, ⟨.op, "("⟩, ⟨.number, "1"⟩, ⟨.op, ")"⟩,
        ⟨.keyword, "RETURNING"⟩, tk] = none) ∧
    Parse "INSERT INTO t VALUES (1) RETURNING ALL_NEW" = none ∧
    Parse "INSERT INTO t VALUES (1)" =
      some ⟨none, some ⟨"t", [⟨{ zeroValue with
        Scalar := { zeroScalar with Number := some ⟨1, 0⟩ } }, none⟩],
        none⟩, none, none⟩ :=
  ⟨rfl, rfl, fun _ h1 h2 => parse_returning_other h1 h2, rfl, rfl⟩

/-- C7, witness for the universal part at the token `UPDATED_NEW`. -/
theorem C7_witness :
    ParseTokens [⟨.keyword, "INSERT"⟩, ⟨.keyword, "INTO"⟩, ⟨.ident, "t"⟩,
      ⟨.keyword, "VALUES"⟩, ⟨.op, "("⟩, ⟨.number, "1"⟩, ⟨.op, ")"⟩,
      ⟨.keyword, "RETURNING"⟩, ⟨.keyword, "UPDATED_NEW"⟩] = none :=
  C7_theorem.2.2.1 ⟨.keyword, "UPDATED_NEW"⟩ (by decide) (by decide)

/-- C8 (confirmed): JSON object and array literals in INSERT rows accept a
trailing comma, and the empty object `{}` and empty array `[]` parse with
zero entries. -/
theorem C8_theorem :
    Parse "INSERT INTO t VALUES ({})" =
      some ⟨none, some ⟨"t", [⟨zeroValue, some (.mk [])⟩], none⟩, none, none⟩ ∧
    Parse "INSERT INTO t VALUES ({a: 1,})" =
      some ⟨none, some ⟨"t", [⟨zeroValue, some (.mk [.mk "a"
        (.mk { zeroScalar with Number := some ⟨1, 0⟩ } none none)])⟩], none⟩, none, none⟩ ∧
    Parse "INSERT INTO t VALUES ({a: [1, 2,], b: [], c: {},})" =
      some ⟨none, some ⟨"t", [⟨zeroValue, some (.mk
        [.mk "a" (.mk zeroScalar none (some (.mk
            [.mk { zeroScalar with Number := some ⟨1, 0⟩ } none none,
             .mk { zeroScalar with Number := some ⟨2, 0⟩ } none none]))),
         .mk "b" (.mk zeroScalar none (some (.mk []))),
         .mk "c" (.mk zeroScalar (some (.mk [])) none)])⟩], none⟩, none, none⟩ :=
  ⟨rfl, rfl, rfl⟩

/-- C9 (confirmed): a named placeholder `:name` is captured with its
leading colon: both the `:` token and the identifier are captured into the
`PlaceHolder` field, which participle concatenates. -/
theorem C9_theorem :
    (∀ (name : String) (rest : Tokens),
      parseValue (⟨.op, ":"⟩ :: ⟨.ident, name⟩ :: rest) =
        some ({ zeroValue with PlaceHolder := some (":" ++ name) }, rest)) ∧
    Parse "INSERT INTO t VALUES (:foo)" =
      some ⟨none, some ⟨"t",
        [⟨{ zeroValue with PlaceHolder := some ":foo" }, none⟩], none⟩, none, none⟩ :=
  ⟨fun name rest => parseValue_placeholder name rest, rfl⟩

/-- C10 (confirmed): document-path array indexes may be signed: `-1` and
`+2` lex as single signed `Number` tokens, the integer capture accepts the
sign, and the signed values land in `PathFragment.Indexes`. -/
theorem C10_theorem :
    lexChars "a[-1]".data =
      some [⟨.ident, "a"⟩, ⟨.op, "["⟩, ⟨.number, "-1"⟩, ⟨.op, "]"⟩] ∧
    lexChars "b[+2]".data =
      some [⟨.ident, "b"⟩, ⟨.op, "["⟩, ⟨.number, "+2"⟩, ⟨.op, "]"⟩] ∧
    parseGoInt "-1" = some (-1) ∧ parseGoInt "+2" = some 2 ∧
    Parse "SELECT x[-1].y[+2] FROM t" =
      some ⟨some ⟨⟨false, [⟨none, some ⟨[⟨"x", [-1]⟩, ⟨"y", [2]⟩]⟩⟩]⟩,
        "t", none, none, none, none⟩, none, none, none⟩ :=
  ⟨rfl, rfl, rfl, rfl, rfl⟩

/-- C4, counterexample: the parser produces (from a back-tick-quoted
identifier) a document path whose printed form does not re-parse: the AST
of `SELECT `a b` FROM t` holds the path `a b`, `DocumentPath.String` prints
it as `a b` (without the back-ticks), and re-parsing that text fails. -/
theorem C4_counterexample :
    (Parse "SELECT `a b` FROM t").isSome = true ∧
    firstProjectionPathOf (Parse "SELECT `a b` FROM t") = some ⟨[⟨"a b", []⟩]⟩ ∧
    documentPathString ⟨[⟨"a b", []⟩]⟩ = "a b" ∧
    parseDocumentPathString "a b" = none :=
  ⟨rfl, rfl, rfl, rfl⟩

/-- C4, amended: the printer/parser round-trip holds for document paths
whose fragment symbols are plain unquoted identifiers that are not
reserved words (indexes included); it fails in general — for example a
quoted identifier prints without its back-ticks (see the counterexample),
and the all-columns projection prints as the empty string. -/
theorem C4_amended_theorem :
    (∀ p : DocumentPath, p.Fragment ≠ [] →
      (∀ fr ∈ p.Fragment, fragIsPlain fr = true) →
      parseDocumentPathString (documentPathString p) = some p) ∧
    documentPathString ⟨[⟨"a", [-1]⟩, ⟨"b", [0, 2]⟩]⟩ = "a[-1].b[0][2]" ∧
    parseDocumentPathString "a[-1].b[0][2]" = some ⟨[⟨"a", [-1]⟩, ⟨"b", [0, 2]⟩]⟩ :=
  ⟨fun p h1 h2 => roundtrip_plain_path p h1 h2, rfl, rfl⟩

/-- C4, witness for the amended round-trip at the path `foo.bar_2`. -/
theorem C4_witness :
    parseDocumentPathString (documentPathString ⟨[⟨"foo", []⟩, ⟨"bar_2", []⟩]⟩) =
      some ⟨[⟨"foo", []⟩, ⟨"bar_2", []⟩]⟩ :=
  C4_amended_theorem.1 ⟨[⟨"foo", []⟩, ⟨"bar_2", []⟩]⟩ (by decide) (by decide)


end DynamoSql
